import Mathlib

/-!
Verification of the PDF-to-text core of go-html-pdf against its
specification.  The Go sources are shallowly embedded: byte buffers are
`List Nat` (each element a byte value), Go strings of text are `List Nat`
of Unicode scalar values where noted, `int64` is `Int` with explicit
range checks where the code checks them, and `float64` is modelled by `ℚ`
(the code only adds, subtracts, multiplies, divides and compares, and no
claim depends on rounding).  Loops that the Go code guarantees to leave
are given sufficient fuel at their call sites; loops that can genuinely
run forever in Go (the object parser's array loop, the xref `Prev`
chain, reference resolution) are fueled with an observable out-of-fuel
result so that divergence is provable.  Calls into the Go standard
library's zlib, lzw and ascii85 decoders are abstracted as a `Codecs`
record of oracle functions; everything else is translated from the
repository's source.
-/

/-- Convert an ASCII string literal to its list of byte values. -/
def bytesOf (s : String) : List Nat := s.toList.map Char.toNat

/-- Indexing with Go's guarded access pattern: the embedding only reads
`dGet` under the same bounds checks the Go code performs. -/
def dGet (data : List Nat) (pos : Nat) : Nat := data.getD pos 0

/-- Go slice `data[a:b]` (used only with `a ≤ b ≤ len` as in the source). -/
def sliceL (data : List Nat) (a b : Nat) : List Nat := (data.drop a).take (b - a)

/-- isWhitespace from part_001: space, tab, CR, LF, FF and NUL. -/
def isWhitespaceB (b : Nat) : Bool :=
  b == 32 || b == 9 || b == 13 || b == 10 || b == 12 || b == 0

/-- isDelim from part_001: the PDF delimiter characters. -/
def isDelim (b : Nat) : Bool :=
  b == 40 || b == 41 || b == 60 || b == 62 || b == 91 || b == 93 ||
  b == 123 || b == 125 || b == 47 || b == 37

/-- hexVal from part_001: hex digit value, 0 for any other byte. -/
def hexVal (b : Nat) : Nat :=
  if 48 ≤ b ∧ b ≤ 57 then b - 48
  else if 97 ≤ b ∧ b ≤ 102 then b - 97 + 10
  else if 65 ≤ b ∧ b ≤ 70 then b - 65 + 10
  else 0

/-- Parser.skipWhitespace from part_001, written as a byte machine: a `%`
enters comment mode, which ends at (and consumes) the next CR or LF,
exactly as the two nested Go loops do.  Fuel decreases with the cursor;
`skipWS` supplies enough for the whole buffer. -/
def skipWSF : Nat → List Nat → Nat → Bool → Nat
  | 0, _, pos, _ => pos
  | f + 1, data, pos, inComment =>
    if pos < data.length then
      let c := dGet data pos
      if inComment then
        if c == 10 || c == 13 then skipWSF f data (pos + 1) false
        else skipWSF f data (pos + 1) true
      else if c == 37 then skipWSF f data (pos + 1) true
      else if c == 32 || c == 9 || c == 13 || c == 10 || c == 12 then
        skipWSF f data (pos + 1) false
      else pos
    else pos

def skipWS (data : List Nat) (pos : Nat) : Nat :=
  skipWSF (data.length + 1 - pos) data pos false

/-- Parser.readToken from part_001: scan the non-whitespace,
non-delimiter bytes from `pos`; returns the token and the new cursor. -/
def readToken (data : List Nat) (pos : Nat) : List Nat × Nat :=
  let tok := (data.drop pos).takeWhile (fun c => !isWhitespaceB c && !isDelim c)
  (tok, pos + tok.length)

/-- Parser.match from part_001 (the test only; callers advance by the
pattern length on success). -/
def matchAt (data : List Nat) (pos : Nat) (pat : List Nat) : Bool :=
  decide (pos + pat.length ≤ data.length) && ((data.drop pos).take pat.length == pat)

/-- bytes.Index of `pat` inside `hay` (first occurrence), as used for the
`endstream` fallback search. -/
def indexOfSub (hay pat : List Nat) : Option Nat :=
  match hay with
  | [] => if pat == [] then some 0 else none
  | _ :: t => if pat.isPrefixOf hay then some 0 else (indexOfSub t pat).map (· + 1)

/-- Digit-string value for the Atoi model. -/
def digitsVal : List Nat → Option Nat
  | [] => none
  | ds =>
    if ds.all (fun c => decide (48 ≤ c) && decide (c ≤ 57)) then
      some (ds.foldl (fun a c => a * 10 + (c - 48)) 0)
    else none

/-- strconv.Atoi / strconv.ParseInt(s, 10, 64): optional sign, decimal
digits, failing on empty input, stray bytes and 64-bit overflow. -/
def goAtoi (t : List Nat) : Option Int :=
  match t with
  | [] => none
  | c :: rest =>
    let signed : Bool × List Nat :=
      if c == 43 then (false, rest) else if c == 45 then (true, rest) else (false, t)
    match digitsVal signed.2 with
    | none => none
    | some v =>
      let i : Int := if signed.1 then -(v : Int) else (v : Int)
      if i < -(2 ^ 63) ∨ i > 2 ^ 63 - 1 then none else some i

/-- strconv.ParseFloat for the decimal forms the parser can feed it
(sign, digits, optional fraction, optional exponent).  The exotic inputs
Go also accepts (Inf, NaN, hex floats) cannot reach this call from
parseNumberOrRef, whose tokens exclude their characters or fail Atoi
first in ways no claim depends on. -/
def goParseFloat (t : List Nat) : Option ℚ :=
  match t with
  | [] => none
  | c :: rest =>
    let signed : Bool × List Nat :=
      if c == 43 then (false, rest) else if c == 45 then (true, rest) else (false, t)
    let s := signed.2
    let intPart := s.takeWhile (fun c => decide (48 ≤ c) && decide (c ≤ 57))
    let s1 := s.drop intPart.length
    let fracSplit : List Nat × List Nat :=
      match s1 with
      | 46 :: r =>
        let fp := r.takeWhile (fun c => decide (48 ≤ c) && decide (c ≤ 57))
        (fp, r.drop fp.length)
      | _ => ([], s1)
    let fracPart := fracSplit.1
    let s2 := fracSplit.2
    if intPart.length + fracPart.length == 0 then none
    else
      let mant : ℚ :=
        (((intPart ++ fracPart).foldl (fun a c => a * 10 + (c - 48)) 0 : ℕ) : ℚ) /
          (10 : ℚ) ^ fracPart.length
      let expo : Option ℚ :=
        match s2 with
        | [] => some 1
        | e :: r =>
          if e == 101 ∨ e == 69 then
            let es : Bool × List Nat :=
              match r with
              | 43 :: r2 => (false, r2)
              | 45 :: r2 => (true, r2)
              | _ => (false, r)
            match digitsVal es.2 with
            | none => none
            | some ev =>
              some (if es.1 then (10 : ℚ) ^ (-(ev : ℤ)) else (10 : ℚ) ^ (ev : ℤ))
          else none
      match expo with
      | none => none
      | some scale =>
        some ((if signed.1 then -mant else mant) * scale)

/-- The ten-case PDF object variant from part_001.  Dictionaries are
association lists (Go's map, with overwrite-on-set and key lookup). -/
inductive Object where
  | null : Object
  | bool (b : Bool) : Object
  | int (n : Int) : Object
  | float (q : ℚ) : Object
  | str (s : List Nat) : Object
  | name (n : String) : Object
  | arr (a : List Object) : Object
  | dict (d : List (String × Object)) : Object
  | stream (d : List (String × Object)) (s : List Nat) : Object
  | ref (num gen : Int) : Object

/-- A PDF dictionary: Go's `map[string]*Object`. -/
def PDict := List (String × Object)

def PDict.find (d : PDict) (k : String) : Option Object :=
  (List.find? (fun p => p.1 == k) d).map Prod.snd

/-- Go map assignment `d[k] = v`: overwrite any previous binding. -/
def PDict.set (d : PDict) (k : String) (v : Object) : PDict :=
  (k, v) :: List.filter (fun p => ¬ p.1 == k) d

/-- Accessing the `.Int` field of the Go Object struct: zero unless the
object was built as an integer. -/
def Object.intF : Object → Int
  | .int n => n
  | _ => 0

/-- The `.Dict` field: empty unless the object is a dict or stream. -/
def Object.dictF : Object → PDict
  | .dict d => d
  | .stream d _ => d
  | _ => []

/-- The `.Array` field. -/
def Object.arrayF : Object → List Object
  | .arr a => a
  | _ => []

/-- The `.Stream` field (raw payload bytes). -/
def Object.streamF : Object → List Nat
  | .stream _ s => s
  | _ => []

/-- The `.Name` field. -/
def Object.nameF : Object → String
  | .name n => n
  | _ => ""

/-- The `.Str` field. -/
def Object.strF : Object → List Nat
  | .str s => s
  | _ => []

def Object.isStream : Object → Bool
  | .stream _ _ => true
  | _ => false

/-- Truncation of a float64 to int64 (Go converts toward zero; `Int.div`
also truncates toward zero). -/
def truncQ (q : ℚ) : Int := Int.tdiv q.num (q.den : Int)

/-- Dict.GetInt from part_001. -/
def PDict.getInt (d : PDict) (k : String) : Option Int :=
  match d.find k with
  | some (.int n) => some n
  | some (.float q) => some (truncQ q)
  | _ => none

/-- Dict.GetName from part_001. -/
def PDict.getName (d : PDict) (k : String) : Option String :=
  match d.find k with
  | some (.name n) => some n
  | some (.str s) => some (String.mk (s.map Char.ofNat))
  | _ => none

/-- Dict.GetArray from part_001: any non-array value present under the
key is returned as a one-element array. -/
def PDict.getArray (d : PDict) (k : String) : Option (List Object) :=
  match d.find k with
  | some (.arr a) => some a
  | some o => some [o]
  | none => none

/-- decodeNameEscapes from part_001: `#XX` escapes need two following
bytes (the Go guard is `i+2 < len(s)`). -/
def decodeNameEscapesGo : List Nat → List Nat
  | [] => []
  | 35 :: a :: b :: rest => (hexVal a * 16 + hexVal b) :: decodeNameEscapesGo rest
  | c :: rest => c :: decodeNameEscapesGo rest

def decodeNameEscapes (s : List Nat) : List Nat :=
  if s.contains 35 then decodeNameEscapesGo s else s

def maxNesting : Nat := 100

/-- Result of a fueled parse: `ok` with the object and new cursor,
`err` for the Go error returns, `spin` when the fuel ran out — the
marker for a run that Go never finishes. -/
inductive PRes where
  | ok (o : Object) (pos : Nat) : PRes
  | err : PRes
  | spin : PRes

/-- The literal-string loop of parseString from part_001 (escapes, nested
parens, octal).  Every iteration advances the cursor, so buffer-length
fuel is enough. -/
def parseStrLoop : Nat → List Nat → Nat → Nat → List Nat → List Nat × Nat
  | 0, _, pos, _, acc => (acc, pos)
  | f + 1, data, pos, depth, acc =>
    if pos < data.length ∧ depth > 0 then
      let c := dGet data pos
      if c == 92 then
        let pos := pos + 1
        if pos ≥ data.length then (acc, pos)
        else
          let esc := dGet data pos
          let pos := pos + 1
          if esc == 110 then parseStrLoop f data pos depth (acc ++ [10])
          else if esc == 114 then parseStrLoop f data pos depth (acc ++ [13])
          else if esc == 116 then parseStrLoop f data pos depth (acc ++ [9])
          else if esc == 98 then parseStrLoop f data pos depth (acc ++ [8])
          else if esc == 102 then parseStrLoop f data pos depth (acc ++ [12])
          else if esc == 40 then parseStrLoop f data pos depth (acc ++ [40])
          else if esc == 41 then parseStrLoop f data pos depth (acc ++ [41])
          else if esc == 92 then parseStrLoop f data pos depth (acc ++ [92])
          else if esc == 13 then
            let pos := if pos < data.length ∧ dGet data pos == 10 then pos + 1 else pos
            parseStrLoop f data pos depth acc
          else if esc == 10 then parseStrLoop f data pos depth acc
          else if 48 ≤ esc ∧ esc ≤ 55 then
            let o1 := esc - 48
            let step : Nat × Nat :=
              if pos < data.length ∧ 48 ≤ dGet data pos ∧ dGet data pos ≤ 55 then
                (o1 * 8 + (dGet data pos - 48), pos + 1)
              else (o1, pos)
            let step2 : Nat × Nat :=
              if step.2 < data.length ∧ 48 ≤ dGet data step.2 ∧ dGet data step.2 ≤ 55 then
                (step.1 * 8 + (dGet data step.2 - 48), step.2 + 1)
              else step
            parseStrLoop f data step2.2 depth (acc ++ [step2.1 % 256])
          else parseStrLoop f data pos depth (acc ++ [esc])
      else if c == 40 then parseStrLoop f data (pos + 1) (depth + 1) (acc ++ [c])
      else if c == 41 then
        if depth - 1 > 0 then parseStrLoop f data (pos + 1) (depth - 1) (acc ++ [c])
        else parseStrLoop f data (pos + 1) (depth - 1) acc
      else parseStrLoop f data (pos + 1) depth (acc ++ [c])
    else (acc, pos)

/-- parseString from part_001: `pos` is just past the opening paren. -/
def parseStringLit (data : List Nat) (pos : Nat) : Object × Nat :=
  let r := parseStrLoop (data.length + 1) data pos 1 []
  (.str r.1, r.2)

/-- The hex-string loop of parseHexString from part_001.  Note the
source only skips whitespace before the high nibble. -/
def parseHexLoop : Nat → List Nat → Nat → List Nat → List Nat × Nat
  | 0, _, pos, acc => (acc, pos)
  | f + 1, data, pos, acc =>
    if pos < data.length ∧ dGet data pos ≠ 62 then
      let pos := skipWS data pos
      if pos ≥ data.length ∨ dGet data pos == 62 then (acc, pos)
      else
        let hi := hexVal (dGet data pos)
        let pos := pos + 1
        let step : Nat × Nat :=
          if pos < data.length ∧ dGet data pos ≠ 62 then
            (hexVal (dGet data pos), pos + 1)
          else (0, pos)
        parseHexLoop f data step.2 (acc ++ [hi * 16 + step.1])
    else (acc, pos)

/-- parseHexString from part_001: `pos` is just past the `<`. -/
def parseHexStr (data : List Nat) (pos : Nat) : Object × Nat :=
  let r := parseHexLoop (data.length + 1) data pos []
  let pos := if r.2 < data.length then r.2 + 1 else r.2
  (.str r.1, pos)

/-- parseName from part_001: `pos` is at the `/`. -/
def parseNameGo (data : List Nat) (pos : Nat) : Object × Nat :=
  let start := pos + 1
  let raw := (data.drop start).takeWhile (fun c => !isWhitespaceB c && !isDelim c)
  let nm := decodeNameEscapes raw
  (.name (String.mk (nm.map Char.ofNat)), start + raw.length)

/-- parseNumberOrRef from part_001: a number, or an indirect reference
`N G R` with rollback when the three-token lookahead fails. -/
def parseNumberOrRef (data : List Nat) (pos : Nat) : Object × Nat :=
  let t1 := readToken data pos
  let numTok := t1.1
  let p1 := t1.2
  match goAtoi numTok with
  | some n =>
    let p2 := skipWS data p1
    let t2 := readToken data p2
    let p3 := t2.2
    let p4 := skipWS data p3
    match goAtoi t2.1 with
    | some g =>
      if p4 < data.length ∧ dGet data p4 == 82 ∧
          (p4 + 1 ≥ data.length ∨ isWhitespaceB (dGet data (p4 + 1)) ∨
            isDelim (dGet data (p4 + 1))) then
        (.ref n g, p4 + 1)
      else (.int n, p1)
    | none => (.int n, p1)
  | none =>
    match goParseFloat numTok with
    | some q => (.float q, p1)
    | none => (.null, p1)

/-- The stream suffix of parseDict from part_001: after `>>`, an
optional `stream` keyword, EOL handling, `/Length`-or-`endstream`
payload slicing, and the trailing `endstream`. -/
def dictStream (data : List Nat) (pos0 : Nat) (d : PDict) : PRes :=
  let pos := skipWS data pos0
  if ¬ matchAt data pos (bytesOf "stream") then .ok (.dict d) pos
  else
    let pos := pos + 6
    let pos := if pos < data.length ∧ dGet data pos == 13 then pos + 1 else pos
    let pos := if pos < data.length ∧ dGet data pos == 10 then pos + 1 else pos
    let streamStart := pos
    let lengthOpt : Option Int :=
      match d.find "Length" with
      | some (.int n) => some n
      | _ => none
    let cut : List Nat × Nat :=
      match lengthOpt with
      | some n =>
        if 0 ≤ n ∧ streamStart + n.toNat ≤ data.length then
          (sliceL data streamStart (streamStart + n.toNat), streamStart + n.toNat)
        else
          match indexOfSub (data.drop streamStart) (bytesOf "endstream") with
          | some e => (sliceL data streamStart (streamStart + e), streamStart + e)
          | none => (data.drop streamStart, data.length)
      | none =>
        match indexOfSub (data.drop streamStart) (bytesOf "endstream") with
        | some e => (sliceL data streamStart (streamStart + e), streamStart + e)
        | none => (data.drop streamStart, data.length)
    let pos := skipWS data cut.2
    let pos := if matchAt data pos (bytesOf "endstream") then pos + 9 else pos
    .ok (.stream d cut.1) pos

/-- The mutually recursive portion of the parser (ParseObject, the
parseArray element loop, the parseDict key/value loop from part_001)
flattened into one fuel-structural function so that it computes by
kernel reduction; the mode selects which of the three bodies runs. -/
inductive PMode where
  | obj : PMode
  | arrLoop (acc : List Object) : PMode
  | dictLoop (d : PDict) : PMode

def parseRunF : Nat → List Nat → Nat → Nat → PMode → PRes
  | 0, _, _, _, _ => .spin
  | fuel + 1, data, pos0, depth, .obj =>
    if depth > maxNesting then .err
    else
      let depth1 := depth + 1
      let pos := skipWS data pos0
      if pos ≥ data.length then .ok .null pos
      else
        let c := dGet data pos
        if c == 110 ∧ matchAt data pos (bytesOf "null") then .ok .null (pos + 4)
        else if c == 116 ∧ matchAt data pos (bytesOf "true") then .ok (.bool true) (pos + 4)
        else if c == 102 ∧ matchAt data pos (bytesOf "false") then .ok (.bool false) (pos + 5)
        else if c == 40 then
          let r := parseStringLit data (pos + 1)
          .ok r.1 r.2
        else if c == 60 ∧ pos + 1 < data.length ∧ dGet data (pos + 1) == 60 then
          parseRunF fuel data (pos + 2) depth1 (.dictLoop [])
        else if c == 60 then
          let r := parseHexStr data (pos + 1)
          .ok r.1 r.2
        else if c == 47 then
          let r := parseNameGo data pos
          .ok r.1 r.2
        else if c == 91 then
          parseRunF fuel data (pos + 1) depth1 (.arrLoop [])
        else if c == 43 ∨ c == 45 ∨ c == 46 ∨ (48 ≤ c ∧ c ≤ 57) then
          let r := parseNumberOrRef data pos
          .ok r.1 r.2
        else .ok .null pos
  | fuel + 1, data, pos0, depth, .arrLoop acc =>
    let pos := skipWS data pos0
    if pos ≥ data.length then .ok (.arr acc) pos
    else if dGet data pos == 93 then .ok (.arr acc) (pos + 1)
    else
      match parseRunF fuel data pos depth .obj with
      | .ok o p => parseRunF fuel data p depth (.arrLoop (acc ++ [o]))
      | .err => .err
      | .spin => .spin
  | fuel + 1, data, pos0, depth, .dictLoop d =>
    let pos := skipWS data pos0
    if pos ≥ data.length then dictStream data pos d
    else if pos + 1 < data.length ∧ dGet data pos == 62 ∧ dGet data (pos + 1) == 62 then
      dictStream data (pos + 2) d
    else if dGet data pos ≠ 47 then parseRunF fuel data (pos + 1) depth (.dictLoop d)
    else
      let kr := parseNameGo data pos
      match parseRunF fuel data kr.2 depth .obj with
      | .ok v p => parseRunF fuel data p depth (.dictLoop (d.set kr.1.nameF v))
      | .err => .err
      | .spin => .spin

/-- Parser.ParseObject from part_001, fueled.  `depth` is the nesting
counter: the source rejects `depth > 100` before incrementing. -/
def parseObjectF (fuel : Nat) (data : List Nat) (pos depth : Nat) : PRes :=
  parseRunF fuel data pos depth .obj

/-- The element loop of Parser.parseArray from part_001, fueled. -/
def parseArrayF (fuel : Nat) (data : List Nat) (pos depth : Nat) (acc : List Object) : PRes :=
  parseRunF fuel data pos depth (.arrLoop acc)

/-- The key/value loop of Parser.parseDict from part_001, fueled;
`dictStream` finishes the object. -/
def parseDictF (fuel : Nat) (data : List Nat) (pos depth : Nat) (d : PDict) : PRes :=
  parseRunF fuel data pos depth (.dictLoop d)

/-- maxDecompressedSize from decompress.go: 256 MiB. -/
def maxDecompressedSize : Nat := 256 * 1024 * 1024

/-- Oracles for the Go standard-library decoders the source calls
(zlib, compress/lzw, encoding/ascii85).  Each returns the byte stream
the host decoder would produce together with an ok flag; the embedding
of the `io.ReadAll(io.LimitReader(...))` pattern consumes them exactly
as the source consumes the readers: at most `maxDecompressedSize + 1`
bytes are read, and a decoder error is seen only if it occurs within
the read window. -/
structure Codecs where
  inflate : List Nat → List Nat × Bool
  lzw : List Nat → List Nat × Bool
  a85 : List Nat → List Nat × Bool

/-- io.ReadAll(io.LimitReader(r, maxDecompressedSize+1)) over an oracle
stream: truncation hides any error beyond the limit. -/
def limitReadAll (st : List Nat × Bool) : Except String (List Nat) :=
  if st.1.length ≥ maxDecompressedSize + 1 then .ok (st.1.take (maxDecompressedSize + 1))
  else if st.2 then .ok st.1
  else .error "read"

/-- Go integer division (truncation toward zero). -/
def goDiv (a b : Int) : Int := Int.tdiv a b

/-- Predictor row length `rowBytes` shared by both predictors. -/
def predRowBytes (parms : PDict) : Int × Int :=
  let colors0 := (parms.getInt "Colors").getD 0
  let bits0 := (parms.getInt "BitsPerComponent").getD 0
  let columns0 := (parms.getInt "Columns").getD 0
  let colors := if colors0 == 0 then 1 else colors0
  let bits := if bits0 == 0 then 8 else bits0
  let columns := if columns0 == 0 then 1 else columns0
  (goDiv (columns * colors * bits + 7) 8, columns)

/-- Split into consecutive chunks of `k > 0` bytes (last one partial). -/
def chunksOf : Nat → Nat → List Nat → List (List Nat)
  | 0, _, _ => []
  | _, _, [] => []
  | fuel + 1, k, l => l.take k :: chunksOf fuel k (l.drop k)

/-- The in-row byte accumulation of applyTIFFPredictor: the first byte
is copied, each later byte adds its predecessor mod 256. -/
def tiffRowAcc : Nat → List Nat → List Nat
  | _, [] => []
  | last, c :: r =>
    let v := (c + last) % 256
    v :: tiffRowAcc v r

def tiffRow : List Nat → List Nat
  | [] => []
  | c :: r => c :: tiffRowAcc c r

/-- applyTIFFPredictor from decompress.go (row-wise horizontal
prediction; a non-positive row length returns the data unchanged — the
zero case as in the source, the negative case standing in for the Go
slice panic no claim reaches). -/
def applyTIFFPredictor (parms : PDict) (data : List Nat) : List Nat :=
  let rb := (predRowBytes parms).1
  if rb ≤ 0 then data
  else (chunksOf (data.length + 1) rb.toNat data).flatMap tiffRow

/-- paethPredictor from decompress.go. -/
def paethPredictor (a b c : Nat) : Nat :=
  let p : Int := (a : Int) + b - c
  let pa := (p - a).natAbs
  let pb := (p - b).natAbs
  let pc := (p - c).natAbs
  if pa ≤ pb ∧ pa ≤ pc then a
  else if pb ≤ pc then b
  else c

/-- PNG Sub filter: add the previous decoded byte of the row. -/
def pngSub : Nat → List Nat → List Nat
  | _, [] => []
  | a, s :: r =>
    let v := (s + a) % 256
    v :: pngSub v r

/-- PNG Average filter over (source byte, up byte) pairs, carrying the
previous decoded byte. -/
def pngAvg : Nat → List (Nat × Nat) → List Nat
  | _, [] => []
  | a, (s, b) :: r =>
    let v := (s + (a + b) / 2) % 256
    v :: pngAvg v r

/-- PNG Paeth filter over (source byte, up byte) pairs, carrying the
previous decoded byte and the up-left byte. -/
def pngPaeth : Nat → Nat → List (Nat × Nat) → List Nat
  | _, _, [] => []
  | a, c, (s, b) :: r =>
    let v := (s + paethPredictor a b c) % 256
    v :: pngPaeth v b r

/-- One PNG-filtered row: `ft` is the leading filter tag byte. -/
def pngRow (ft : Nat) (src prev : List Nat) : List Nat :=
  if ft == 0 then src
  else if ft == 1 then pngSub 0 src
  else if ft == 2 then (src.zip prev).map (fun p => (p.1 + p.2) % 256)
  else if ft == 3 then pngAvg 0 (src.zip prev)
  else if ft == 4 then pngPaeth 0 0 (src.zip prev)
  else src

def pngRows : List (List Nat) → List Nat → List Nat
  | [], _ => []
  | row :: rest, prev =>
    let ft := dGet row 0
    let src := row.drop 1
    let dst := pngRow ft src prev
    dst ++ pngRows rest dst

/-- applyPNGPredictor from decompress.go: fixed-width rows of
`rowBytes + 1` bytes, the first byte of each being the filter tag;
only complete rows are decoded. -/
def applyPNGPredictor (parms : PDict) (data : List Nat) : List Nat :=
  let rb := (predRowBytes parms).1
  if rb ≤ 0 then data
  else
    let rowBytes := rb.toNat
    let stride := rowBytes + 1
    if data.length == 0 ∨ stride ≤ 1 then data
    else
      let numRows := data.length / stride
      pngRows (chunksOf (data.length + 1) stride (data.take (numRows * stride)))
        (List.replicate rowBytes 0)

/-- flateDecode from decompress.go: host zlib inflate under the 256 MiB
limit reader, an explicit over-limit error, then the optional
predictor. -/
def flateDecode (cod : Codecs) (parms : Option PDict) (data : List Nat) :
    Except String (List Nat) :=
  match limitReadAll (cod.inflate data) with
  | .error _ => .error "zlib"
  | .ok result =>
    if result.length > maxDecompressedSize then .error "DecompressionLimit"
    else
      match parms with
      | none => .ok result
      | some ps =>
        match ps.getInt "Predictor" with
        | none => .ok result
        | some predictor =>
          if predictor == 1 then .ok result
          else if predictor == 2 then .ok (applyTIFFPredictor ps result)
          else if 10 ≤ predictor ∧ predictor ≤ 15 then .ok (applyPNGPredictor ps result)
          else .ok result

/-- ascii85Decode from decompress.go: truncate at the `~>` marker, then
host decode under the limit reader.  Note there is no over-limit check
after the read. -/
def ascii85Decode (cod : Codecs) (data : List Nat) : Except String (List Nat) :=
  let cut :=
    match indexOfSub data (bytesOf "~>") with
    | some e => data.take (e + 2)
    | none => data
  match limitReadAll (cod.a85 cut) with
  | .error _ => .error "ascii85"
  | .ok result => .ok result

/-- lzwDecode from decompress.go: reads and ignores EarlyChange, host
MSB-first LZW under the limit reader.  Note there is no over-limit
check after the read. -/
def lzwDecode (cod : Codecs) (parms : Option PDict) (data : List Nat) :
    Except String (List Nat) :=
  let _earlyChange : Int :=
    match parms with
    | some ps => (ps.getInt "EarlyChange").getD 1
    | none => 1
  match limitReadAll (cod.lzw data) with
  | .error _ => .error "lzw"
  | .ok result => .ok result

/-- Skip `isWhitespace` bytes from index `i` (the inner loops of
asciiHexDecode). -/
def skipWSIdx (data : List Nat) (i : Nat) : Nat :=
  i + ((data.drop i).takeWhile isWhitespaceB).length

/-- The decode loop of asciiHexDecode from decompress.go.  Every
iteration consumes at least the high-nibble byte, so buffer-length fuel
is enough. -/
def asciiHexLoop : Nat → List Nat → Nat → List Nat → List Nat
  | 0, _, _, acc => acc
  | fuel + 1, data, i, acc =>
    if i < data.length then
      let i := skipWSIdx data i
      if i ≥ data.length ∨ dGet data i == 62 then acc
      else
        let hi := hexVal (dGet data i)
        let i := i + 1
        let i2 := skipWSIdx data i
        let step : Nat × Nat :=
          if i2 < data.length ∧ dGet data i2 ≠ 62 then (hexVal (dGet data i2), i2 + 1)
          else (0, i2)
        asciiHexLoop fuel data step.2 (acc ++ [hi * 16 + step.1])
    else acc

/-- asciiHexDecode from decompress.go: never fails, and imposes no
size cap. -/
def asciiHexDecode (data : List Nat) : Except String (List Nat) :=
  .ok (asciiHexLoop (data.length + 1) data 0 [])

/-- The run loop of runLengthDecode from decompress.go, with the
over-limit check the source performs after each run.  Every iteration
consumes at least the length byte, so buffer-length fuel is enough. -/
def runLengthLoop : Nat → List Nat → List Nat → Except String (List Nat)
  | 0, _, buf => .ok buf
  | fuel + 1, data, buf =>
    match data with
    | [] => .ok buf
    | l :: rest =>
      if l == 128 then .ok buf
      else if l < 128 then
        let count := min (l + 1) rest.length
        let buf2 := buf ++ rest.take count
        if buf2.length > maxDecompressedSize then .error "DecompressionLimit"
        else runLengthLoop fuel (rest.drop count) buf2
      else
        match rest with
        | [] => .ok buf
        | b :: rest2 =>
          let buf2 := buf ++ List.replicate (257 - l) b
          if buf2.length > maxDecompressedSize then .error "DecompressionLimit"
          else runLengthLoop fuel rest2 buf2

def runLengthDecode (data : List Nat) : Except String (List Nat) :=
  runLengthLoop (data.length + 1) data []

/-- applyFilter from decompress.go. -/
def applyFilter (cod : Codecs) (filter : String) (parms : Option PDict)
    (data : List Nat) : Except String (List Nat) :=
  if filter == "FlateDecode" ∨ filter == "Fl" then flateDecode cod parms data
  else if filter == "ASCII85Decode" ∨ filter == "A85" then ascii85Decode cod data
  else if filter == "ASCIIHexDecode" ∨ filter == "AHx" then asciiHexDecode data
  else if filter == "LZWDecode" ∨ filter == "LZW" then lzwDecode cod parms data
  else if filter == "RunLengthDecode" ∨ filter == "RL" then runLengthDecode data
  else if filter == "DCTDecode" ∨ filter == "DCT" ∨ filter == "CCITTFaxDecode" ∨
      filter == "CCF" ∨ filter == "JBIG2Decode" ∨ filter == "JPXDecode" then .ok data
  else if filter == "Crypt" then .ok data
  else .error "UnsupportedFilter"

/-- The filter-chain fold of DecompressStream. -/
def applyChain (cod : Codecs) : List String → List (Option PDict) → List Nat →
    Except String (List Nat)
  | [], _, data => .ok data
  | f :: fs, params, data =>
    let parms := match params with
      | [] => none
      | p :: _ => p
    match applyFilter cod f parms data with
    | .error e => .error e
    | .ok next => applyChain cod fs params.tail next

/-- DecompressStream from decompress.go: filter name or array, parallel
DecodeParms, unknown Filter types passed through. -/
def DecompressStream (cod : Codecs) (dict : PDict) (data : List Nat) :
    Except String (List Nat) :=
  match dict.find "Filter" with
  | none => .ok data
  | some fobj =>
    match fobj with
    | .name n =>
      let parms : Option PDict :=
        match dict.find "DecodeParms" with
        | some (.dict p) => some p
        | _ => none
      applyChain cod [n] [parms] data
    | .arr fs =>
      let filters := fs.filterMap (fun f =>
        match f with
        | .name n => some n
        | _ => none)
      let params0 : List (Option PDict) :=
        match dict.find "DecodeParms" with
        | some (.arr ps) =>
          ps.map (fun p =>
            match p with
            | .dict d => some d
            | _ => none)
        | _ => []
      let params := params0 ++ List.replicate (filters.length - params0.length) none
      applyChain cod filters params data
    | _ => .ok data

/-- XRefEntry from document.go. -/
structure XRefEntry where
  offset : Int := 0
  generation : Int := 0
  inUse : Bool := false
  compressed : Bool := false
  streamObjID : Int := 0
  indexInStrm : Int := 0

/-- Reference from part_001 (`N G R`). -/
structure Reference where
  number : Int
  gen : Int

/-- The Document state: file bytes, xref map, trailer, resolved-object
cache (the Go maps are association lists). -/
structure DocState where
  data : List Nat
  xref : List (Int × XRefEntry)
  trailer : Option PDict
  cache : List (Int × Object)

def xrefFind (x : List (Int × XRefEntry)) (n : Int) : Option XRefEntry :=
  (List.find? (fun p => p.1 == n) x).map Prod.snd

/-- The guarded insertion both xref loaders use: an object number
already present is never overwritten. -/
def xrefSetIfAbsent (x : List (Int × XRefEntry)) (id : Int) (e : XRefEntry) :
    List (Int × XRefEntry) :=
  if (xrefFind x id).isSome then x else (id, e) :: x

def cacheFind (c : List (Int × Object)) (n : Int) : Option Object :=
  (List.find? (fun p => p.1 == n) c).map Prod.snd

def assocFind (c : List (Int × Int)) (n : Int) : Option Int :=
  (List.find? (fun p => p.1 == n) c).map Prod.snd

/-- Go map assignment for the int→int header map. -/
def assocSet (c : List (Int × Int)) (k v : Int) : List (Int × Int) :=
  (k, v) :: List.filter (fun p => ¬ p.1 == k) c

/-- strings.TrimSpace for the ASCII xref-entry fields. -/
def isASCIISpace (b : Nat) : Bool :=
  b == 9 || b == 10 || b == 11 || b == 12 || b == 13 || b == 32

def trimSpaceB (s : List Nat) : List Nat :=
  ((s.dropWhile isASCIISpace).reverse.dropWhile isASCIISpace).reverse

/-- readBigEndian from document.go (`i < n && i < len(data)`). -/
def readBigEndian (data : List Nat) (n : Int) : Int :=
  ((data.take n.toNat).foldl (fun v b => v * 256 + b) 0 : Nat)

/-- The exactly-20-byte entry loop of parseXRefTable. -/
def xrefEntriesLoop (data : List Nat) :
    Nat → Int → Nat → List (Int × XRefEntry) → Nat × List (Int × XRefEntry)
  | 0, _, pos, x => (pos, x)
  | k + 1, id, pos, x =>
    if pos + 20 > data.length then (pos, x)
    else
      let entry := sliceL data pos (pos + 20)
      let pos2 := pos + 20
      if entry.length < 18 then xrefEntriesLoop data k (id + 1) pos2 x
      else
        let off := (goAtoi (trimSpaceB (entry.take 10))).getD 0
        let gen := (goAtoi (trimSpaceB (sliceL entry 11 16))).getD 0
        let inUse := dGet entry 17 == 110
        let x2 := xrefSetIfAbsent x id
          { offset := off, generation := gen, inUse := inUse }
        xrefEntriesLoop data k (id + 1) pos2 x2

/-- The subsection-header loop of parseXRefTable: runs until EOF, the
`trailer` keyword, or a header token that does not parse as an integer.
Every continuing iteration consumes at least one byte, so buffer-length
fuel is enough. -/
def xrefTableLoop (data : List Nat) :
    Nat → Nat → List (Int × XRefEntry) → Nat × List (Int × XRefEntry)
  | 0, pos, x => (pos, x)
  | f + 1, pos0, x =>
    let pos := skipWS data pos0
    if pos ≥ data.length then (pos, x)
    else if (bytesOf "trailer").isPrefixOf (data.drop pos) then (pos + 7, x)
    else
      let t1 := readToken data pos
      let p1 := skipWS data t1.2
      let t2 := readToken data p1
      match goAtoi t1.1, goAtoi t2.1 with
      | some first, some count =>
        let p2 := skipWS data t2.2
        let r := xrefEntriesLoop data count.toNat first p2 x
        xrefTableLoop data f r.1 r.2
      | _, _ => (t2.2, x)

/-- Nil-map-tolerant trailer lookup (`doc.trailer.GetInt`). -/
def trailerGetInt : Option PDict → String → Option Int
  | none, _ => none
  | some d, k => d.getInt k

/-- Document.parseXRefTable from document.go, with the `Prev` recursion
abstracted as `loadRec`.  Note the source reads `Prev` from
`doc.trailer` — the trailer stored by the first table seen — not from
the trailer of the section just parsed. -/
def parseXRefTableGo (fuel : Nat) (loadRec : Int → DocState → Option DocState)
    (pos : Nat) (st : DocState) : Option DocState :=
  let r := xrefTableLoop st.data (st.data.length + 1) pos st.xref
  let pos2 := skipWS st.data r.1
  match parseObjectF fuel st.data pos2 0 with
  | .spin => none
  | .err => some { st with xref := r.2 }
  | .ok tobj _ =>
    let st2 : DocState := { st with
      xref := r.2,
      trailer := match st.trailer, tobj with
        | none, .dict d => some d
        | tr, _ => tr }
    match trailerGetInt st2.trailer "Prev" with
    | some prev => if prev > 0 then loadRec prev st2 else some st2
    | none => some st2

/-- The `Index` array decoded into (first, count) pairs. -/
def indexPairs : List Object → List (Int × Int)
  | a :: b :: rest => (a.intF, b.intF) :: indexPairs rest
  | _ => []

/-- The per-subsection entry loop of parseXRefStream, threading the
running byte offset; unknown type tags insert nothing. -/
def xrefStreamEntries (sdata : List Nat) (w1 w2 w3 entrySize : Int) :
    Nat → Int → Int → List (Int × XRefEntry) → Int × List (Int × XRefEntry)
  | 0, _, offset, x => (offset, x)
  | k + 1, id, offset, x =>
    if offset + entrySize > sdata.length then (offset, x)
    else
      let t := readBigEndian (sdata.drop offset.toNat) w1
      let f2 := readBigEndian (sdata.drop (offset + w1).toNat) w2
      let f3 := readBigEndian (sdata.drop (offset + w1 + w2).toNat) w3
      let offset2 := offset + entrySize
      if (xrefFind x id).isSome then
        xrefStreamEntries sdata w1 w2 w3 entrySize k (id + 1) offset2 x
      else
        let x2 :=
          if t == 0 then (id, { generation := f3 : XRefEntry }) :: x
          else if t == 1 then
            (id, { offset := f2, generation := f3, inUse := true : XRefEntry }) :: x
          else if t == 2 then
            (id, { compressed := true, streamObjID := f2, indexInStrm := f3,
                   inUse := true : XRefEntry }) :: x
          else x
        xrefStreamEntries sdata w1 w2 w3 entrySize k (id + 1) offset2 x2

def xrefStreamSubs (sdata : List Nat) (w1 w2 w3 entrySize : Int) :
    List (Int × Int) → Int → List (Int × XRefEntry) → List (Int × XRefEntry)
  | [], _, x => x
  | (first, count) :: rest, offset, x =>
    let r := xrefStreamEntries sdata w1 w2 w3 entrySize count.toNat first offset x
    xrefStreamSubs sdata w1 w2 w3 entrySize rest r.1 r.2

/-- Document.parseXRefStream from document.go, with the `Prev`
recursion abstracted as `loadRec`. -/
def parseXRefStreamGo (fuel : Nat) (cod : Codecs)
    (loadRec : Int → DocState → Option DocState) (pos : Nat) (st : DocState) :
    Option DocState :=
  let t1 := readToken st.data pos
  let p1 := skipWS st.data t1.2
  let t2 := readToken st.data p1
  let p2 := skipWS st.data t2.2
  let p3 := if matchAt st.data p2 (bytesOf "obj") then p2 + 3 else p2
  let p4 := skipWS st.data p3
  match parseObjectF fuel st.data p4 0 with
  | .spin => none
  | .err => some st
  | .ok obj _ =>
    match obj with
    | .stream d0 sraw =>
      let d : PDict := d0
      let st1 : DocState := { st with
        trailer := match st.trailer with
          | none => some d
          | tr => tr }
      match DecompressStream cod d sraw with
      | .error _ => some st1
      | .ok streamData =>
        let w : List Object := (d.getArray "W").getD []
        if w.length < 3 then some st1
        else
          let w1 := ((w.get? 0).getD .null).intF
          let w2 := ((w.get? 1).getD .null).intF
          let w3 := ((w.get? 2).getD .null).intF
          let entrySize := w1 + w2 + w3
          if entrySize == 0 then some st1
          else
            let size := (d.getInt "Size").getD 0
            let subsections : List (Int × Int) :=
              match d.getArray "Index" with
              | some idx => indexPairs idx
              | none => [(0, size)]
            let st2 : DocState := { st1 with
              xref := xrefStreamSubs streamData w1 w2 w3 entrySize subsections 0 st1.xref }
            match d.getInt "Prev" with
            | some prev => if prev > 0 then loadRec prev st2 else some st2
            | none => some st2
    | _ => some st

/-- Document.loadXRefAt from document.go, fueled on the `Prev` chain:
`none` marks a load that Go never finishes. -/
def loadXRefAtF : Nat → Codecs → Int → DocState → Option DocState
  | 0, _, _, _ => none
  | f + 1, cod, off, st =>
    if off < 0 ∨ off.toNat ≥ st.data.length then some st
    else
      let p := skipWS st.data off.toNat
      if matchAt st.data p (bytesOf "xref") then
        parseXRefTableGo f (loadXRefAtF f cod) (p + 4) st
      else parseXRefStreamGo f cod (loadXRefAtF f cod) p st

/-- Result of a fueled resolution step: the Go error returns carry the
mutated document state; `spin` marks a run Go never finishes. -/
inductive RRes where
  | ok (o : Object) (st : DocState) : RRes
  | err (st : DocState) : RRes
  | spin : RRes

/-- The object-stream header of resolveCompressed: `n` pairs of
whitespace-separated `objId offsetInBody` tokens read from byte 0 of
the decompressed body (unparsable tokens become 0, as with Go's
discarded Atoi error). -/
def objStreamHeader (data : List Nat) : Nat → Nat → List (Int × Int) → List (Int × Int)
  | 0, _, acc => acc
  | k + 1, pos, acc =>
    let p := skipWS data pos
    let t1 := readToken data p
    let p1 := skipWS data t1.2
    let t2 := readToken data p1
    let id := (goAtoi t1.1).getD 0
    let off := (goAtoi t2.1).getD 0
    objStreamHeader data k t2.2 (assocSet acc id off)

def objStreamOffsets (n : Nat) (data : List Nat) : List (Int × Int) :=
  objStreamHeader data n 0 []

/-- The body-offset selection of resolveCompressed (document.go lines
385–392): look the *container stream's own id* up in the header, fall
back to the xref entry's index used as a byte offset, and clamp to the
fallback again when past the end of the body. -/
def objStreamPos (first : Int) (entry : XRefEntry) (offsets : List (Int × Int))
    (dataLen : Nat) : Int :=
  let off :=
    match assocFind offsets entry.streamObjID with
    | some o => o
    | none => entry.indexInStrm
  let objPos := first + off
  if objPos > dataLen then first + entry.indexInStrm else objPos

/-- The mutually recursive resolution trio from document.go
(ResolveRef, resolveAtOffset, resolveCompressed) flattened into one
fuel-structural function.  ResolveRef itself never returns a Go error
(its error paths all return Null with a nil error), so the `refR` mode
only produces `ok` or `spin`; an `err` from it is treated as the Null
object, matching the dead error check at its call sites. -/
inductive RMode where
  | refR (ref : Reference) : RMode
  | atOff (offset : Int) : RMode
  | compR (entry : XRefEntry) : RMode

def resolveRunF : Nat → Codecs → DocState → RMode → RRes
  | 0, _, _, _ => .spin
  | f + 1, cod, st, .refR ref =>
    match cacheFind st.cache ref.number with
    | some o => .ok o st
    | none =>
      match xrefFind st.xref ref.number with
      | none => .ok .null st
      | some e =>
        if ¬ e.inUse then .ok .null st
        else
          let r := if e.compressed then resolveRunF f cod st (.compR e)
                   else resolveRunF f cod st (.atOff e.offset)
          match r with
          | .spin => .spin
          | .err st1 => .ok .null st1
          | .ok o st1 => .ok o { st1 with cache := (ref.number, o) :: st1.cache }
  | f + 1, cod, st, .atOff offset =>
    if offset < 0 ∨ offset.toNat ≥ st.data.length then .err st
    else
      let t1 := readToken st.data offset.toNat
      let p1 := skipWS st.data t1.2
      let t2 := readToken st.data p1
      let p2 := skipWS st.data t2.2
      if ¬ matchAt st.data p2 (bytesOf "obj") then .err st
      else
        match parseObjectF f st.data (p2 + 3) 0 with
        | .spin => .spin
        | .err => .err st
        | .ok obj _ =>
          match obj with
          | .stream d0 sraw =>
            let d : PDict := d0
            match d.find "Length" with
            | some (.ref n g) =>
              match resolveRunF f cod st (.refR ⟨n, g⟩) with
              | .spin => .spin
              | .err st1 => .ok (.stream d sraw) st1
              | .ok lenObj st1 =>
                match lenObj with
                | .int _ =>
                  match parseObjectF f st1.data (p2 + 3) 0 with
                  | .spin => .spin
                  | .err => .err st1
                  | .ok obj2 _ => .ok obj2 st1
                | _ => .ok (.stream d sraw) st1
            | _ => .ok (.stream d sraw) st
          | _ => .ok obj st
  | f + 1, cod, st, .compR entry =>
    match resolveRunF f cod st (.refR ⟨entry.streamObjID, 0⟩) with
    | .spin => .spin
    | .err st1 => .err st1
    | .ok strmObj st1 =>
      match strmObj with
      | .stream d0 sraw =>
        let d : PDict := d0
        match DecompressStream cod d sraw with
        | .error _ => .err st1
        | .ok body =>
          let n := (d.getInt "N").getD 0
          let first := (d.getInt "First").getD 0
          let offsets := objStreamOffsets n.toNat body
          let objPos := objStreamPos first entry offsets body.length
          match parseObjectF f body objPos.toNat 0 with
          | .spin => .spin
          | .err => .err st1
          | .ok o _ => .ok o st1
      | _ => .err st1

/-- Document.ResolveRef from document.go: `none` marks a resolution Go
never finishes; the other results carry the mutated document state. -/
def resolveRefF (fuel : Nat) (cod : Codecs) (st : DocState) (ref : Reference) :
    Option (Object × DocState) :=
  match resolveRunF fuel cod st (.refR ref) with
  | .ok o st1 => some (o, st1)
  | _ => none

/-- Document.resolveAtOffset from document.go. -/
def resolveAtOffsetF (fuel : Nat) (cod : Codecs) (st : DocState) (offset : Int) : RRes :=
  resolveRunF fuel cod st (.atOff offset)

/-- Document.resolveCompressed from document.go. -/
def resolveCompressedF (fuel : Nat) (cod : Codecs) (st : DocState) (entry : XRefEntry) : RRes :=
  resolveRunF fuel cod st (.compR entry)

/-- Go utf8.EncodeRune / strings.Builder.WriteRune: surrogates and
out-of-range values encode U+FFFD. -/
def utf8EncodeRune (r : Nat) : List Nat :=
  if r < 0x80 then [r]
  else if r < 0x800 then [0xC0 + r / 64, 0x80 + r % 64]
  else if 0xD800 ≤ r ∧ r ≤ 0xDFFF then [0xEF, 0xBF, 0xBD]
  else if r < 0x10000 then [0xE0 + r / 4096, 0x80 + (r / 64) % 64, 0x80 + r % 64]
  else if r ≤ 0x10FFFF then
    [0xF0 + r / 262144, 0x80 + (r / 4096) % 64, 0x80 + (r / 64) % 64, 0x80 + r % 64]
  else [0xEF, 0xBF, 0xBD]

/-- Go `[]rune(s)`: UTF-8 decoding where any invalid byte yields U+FFFD
and consumes one byte (the accept ranges are Go's). -/
def utf8DecodeF : Nat → List Nat → List Nat
  | 0, _ => []
  | _, [] => []
  | f + 1, b :: rest =>
    if b < 0x80 then b :: utf8DecodeF f rest
    else if 0xC2 ≤ b ∧ b ≤ 0xDF then
      if 1 ≤ rest.length ∧ 0x80 ≤ dGet rest 0 ∧ dGet rest 0 ≤ 0xBF then
        ((b - 0xC0) * 64 + (dGet rest 0 - 0x80)) :: utf8DecodeF f (rest.drop 1)
      else 0xFFFD :: utf8DecodeF f rest
    else if 0xE0 ≤ b ∧ b ≤ 0xEF then
      let lo2 := if b == 0xE0 then 0xA0 else 0x80
      let hi2 := if b == 0xED then 0x9F else 0xBF
      if 2 ≤ rest.length ∧ (lo2 ≤ dGet rest 0 ∧ dGet rest 0 ≤ hi2) ∧
          (0x80 ≤ dGet rest 1 ∧ dGet rest 1 ≤ 0xBF) then
        ((b - 0xE0) * 4096 + (dGet rest 0 - 0x80) * 64 + (dGet rest 1 - 0x80)) ::
          utf8DecodeF f (rest.drop 2)
      else 0xFFFD :: utf8DecodeF f rest
    else if 0xF0 ≤ b ∧ b ≤ 0xF4 then
      let lo2 := if b == 0xF0 then 0x90 else 0x80
      let hi2 := if b == 0xF4 then 0x8F else 0xBF
      if 3 ≤ rest.length ∧ (lo2 ≤ dGet rest 0 ∧ dGet rest 0 ≤ hi2) ∧
          (0x80 ≤ dGet rest 1 ∧ dGet rest 1 ≤ 0xBF) ∧
          (0x80 ≤ dGet rest 2 ∧ dGet rest 2 ≤ 0xBF) then
        ((b - 0xF0) * 262144 + (dGet rest 0 - 0x80) * 4096 + (dGet rest 1 - 0x80) * 64 +
            (dGet rest 2 - 0x80)) :: utf8DecodeF f (rest.drop 3)
      else 0xFFFD :: utf8DecodeF f rest
    else 0xFFFD :: utf8DecodeF f rest

def utf8DecodeGo (l : List Nat) : List Nat := utf8DecodeF (l.length + 1) l

/-- utf16ToString from the extractor sources: UTF-16 code units to
UTF-8, joining a high surrogate with an immediately following low
surrogate (the Go expression parses as
`((u-0xD800)<<10 | (low-0xDC00)) + 0x10000`). -/
def utf16ToStringF : Nat → List Nat → List Nat
  | 0, _ => []
  | _, [] => []
  | f + 1, u :: rest =>
    if (0xD800 ≤ u ∧ u ≤ 0xDBFF) ∧ 1 ≤ rest.length ∧
        0xDC00 ≤ dGet rest 0 ∧ dGet rest 0 ≤ 0xDFFF then
      utf8EncodeRune ((u - 0xD800) * 1024 + (dGet rest 0 - 0xDC00) + 0x10000) ++
        utf16ToStringF f (rest.drop 1)
    else utf8EncodeRune u ++ utf16ToStringF f rest

def utf16ToString (l : List Nat) : List Nat := utf16ToStringF (l.length + 1) l

/-- strings.TrimPrefix / TrimSuffix / TrimSpace of parseHexToken and
parseHexUTF16 (the token content is ASCII). -/
def trimHexToken (s : List Nat) : List Nat :=
  let s := if s.head? == some 60 then s.drop 1 else s
  let s := if s.getLast? == some 62 then s.dropLast else s
  trimSpaceB s

/-- parseHexToken from the extractor sources: hex digits folded into a
uint32 (wrapping). -/
def parseHexToken (s : List Nat) : Nat :=
  (trimHexToken s).foldl (fun v c => (v * 16 + hexVal c) % 4294967296) 0

/-- The four-hex-digit code-unit scan of parseHexUTF16 (`i+3 < len`). -/
def utf16UnitsOf : List Nat → List Nat
  | a :: b :: c :: d :: rest =>
    (hexVal a * 4096 + hexVal b * 256 + hexVal c * 16 + hexVal d) :: utf16UnitsOf rest
  | _ => []

/-- parseHexUTF16 from the extractor sources: returns the UTF-8 bytes
of the decoded destination string.  A token whose digit count is even
but not a multiple of four is folded byte-wise (wrapping in a Go
`byte`); otherwise four digits at a time become UTF-16BE units. -/
def parseHexUTF16 (s0 : List Nat) : List Nat :=
  let s := trimHexToken s0
  if s.length == 0 then []
  else if s.length % 4 ≠ 0 ∧ s.length % 2 == 0 then
    utf8EncodeRune (s.foldl (fun b c => (b * 16 + hexVal c) % 256) 0)
  else utf16ToString (utf16UnitsOf s)

/-- The token scanner parseCMapTokens from the extractor sources. -/
def parseCMapTokens0 : Nat → List Nat → Nat → List (List Nat) → List (List Nat)
  | 0, _, _, acc => acc
  | f + 1, line, i, acc =>
    if i < line.length then
      let c := dGet line i
      if c == 32 ∨ c == 9 ∨ c == 13 then parseCMapTokens0 f line (i + 1) acc
      else if c == 60 then
        match indexOfSub (line.drop (i + 1)) [62] with
        | none => acc
        | some j => parseCMapTokens0 f line (i + j + 2) (acc ++ [sliceL line i (i + j + 2)])
      else if c == 91 then
        match indexOfSub (line.drop i) [93] with
        | none => acc ++ [line.drop i]
        | some j => parseCMapTokens0 f line (i + j + 1) (acc ++ [sliceL line i (i + j + 1)])
      else
        let tok := (line.drop i).takeWhile (fun b => !(b == 32) && !(b == 9))
        parseCMapTokens0 f line (i + tok.length) (acc ++ [tok])
    else acc

def parseCMapTokens (line : List Nat) : List (List Nat) :=
  parseCMapTokens0 (line.length + 1) line 0 []

/-- The FontEncoding fields parseBFCharEntry touches: the simple
256-entry rune table, the multi-byte CMap map, and the shape flag. -/
structure FontEncoding where
  codeToUnicode : List Nat
  cmapChars : List (Nat × List Nat)
  isSimple : Bool

def cmapSet (c : List (Nat × List Nat)) (k : Nat) (v : List Nat) :
    List (Nat × List Nat) :=
  (k, v) :: List.filter (fun p => ¬ p.1 == k) c

def cmapFind (c : List (Nat × List Nat)) (k : Nat) : Option (List Nat) :=
  (List.find? (fun p => p.1 == k) c).map Prod.snd

/-- parseBFCharEntry from the extractor sources: `<src> <dst>`; simple
fonts store the first rune of the decoded destination, composite fonts
store the whole UTF-8 string under the source code. -/
def parseBFCharEntry (e : FontEncoding) (line : List Nat) : FontEncoding :=
  let tokens := parseCMapTokens line
  if tokens.length < 2 then e
  else
    let src := parseHexToken (tokens.getD 0 [])
    let dst := parseHexUTF16 (tokens.getD 1 [])
    if e.isSimple ∧ src < 256 then
      match utf8DecodeGo dst with
      | r :: _ => { e with codeToUnicode := e.codeToUnicode.set src r }
      | [] => e
    else { e with cmapChars := cmapSet e.cmapChars src dst }

/-- A positioned text span (textSpan from part_003); text is a list of
Unicode scalar values. -/
structure TextSpan where
  x : ℚ
  y : ℚ
  text : List Nat
  fontSize : ℚ

/-- textState from part_003. -/
structure TextState where
  fontName : String
  fontSize : ℚ
  charSpacing : ℚ
  wordSpacing : ℚ
  tx : ℚ
  ty : ℚ
  lx : ℚ
  ly : ℚ
  leading : ℚ
  ctmA : ℚ
  ctmB : ℚ
  ctmC : ℚ
  ctmD : ℚ
  ctmE : ℚ
  ctmF : ℚ

/-- newTextState from part_003. -/
def newTextState : TextState :=
  { fontName := "", fontSize := 12, charSpacing := 0, wordSpacing := 0,
    tx := 0, ty := 0, lx := 0, ly := 0, leading := 0,
    ctmA := 1, ctmB := 0, ctmC := 0, ctmD := 1, ctmE := 0, ctmF := 0 }

/-- floatArg from part_003. -/
def floatArg : Object → ℚ
  | .float q => q
  | .int n => (n : ℚ)
  | _ => 0

/-- A page's font table: resource name to the decode function of its
FontEncoding (`map[string]*FontEncoding` with `Decode` as the only
consumed capability). -/
def FontMap := List (String × (List Nat → List Nat))

def fontsFind (fonts : FontMap) (k : String) : Option (List Nat → List Nat) :=
  (List.find? (fun p => p.1 == k) fonts).map Prod.snd

/-- decodeTextObj from part_003: non-strings decode to nothing; a
missing font falls back to Latin-1 (drop control bytes below 32). -/
def decodeTextObj (fonts : FontMap) (fontName : String) (obj : Object) : List Nat :=
  match obj with
  | .str s =>
    match fontsFind fonts fontName with
    | some dec => dec s
    | none => s.filterMap (fun b => if 32 ≤ b then some b else none)
  | _ => []

def argGet (args : List Object) (i : Nat) : Object := args.getD i .null

/-- The element fold of the `TJ` case of processOperator: strings
append their decoded text, numbers strictly below −100 append one
space. -/
def tjConcat (fonts : FontMap) (fontName : String) : List Object → List Nat
  | [] => []
  | e :: rest =>
    (match e with
     | .str _ => decodeTextObj fonts fontName e
     | .int _ => if floatArg e < -100 then [32] else []
     | .float _ => if floatArg e < -100 then [32] else []
     | _ => []) ++ tjConcat fonts fontName rest

/-- processOperator from part_003 (the caller clears the operand stack
and passes the popped operands). -/
def processOperator (op : String) (args : List Object) (ts : TextState)
    (inText : Bool) (spans : List TextSpan) (fonts : FontMap) :
    TextState × Bool × List TextSpan :=
  if op == "q" ∨ op == "Q" then (ts, inText, spans)
  else if op == "cm" then
    (if args.length ≥ 6 then
      { ts with
        ctmA := floatArg (argGet args 0)
        ctmB := floatArg (argGet args 1)
        ctmC := floatArg (argGet args 2)
        ctmD := floatArg (argGet args 3)
        ctmE := floatArg (argGet args 4)
        ctmF := floatArg (argGet args 5) }
     else ts, inText, spans)
  else if op == "BT" then
    ({ ts with
       tx := 0
       ty := 0
       lx := 0
       ly := 0 }, true, spans)
  else if op == "ET" then (ts, false, spans)
  else if op == "Tf" then
    (if args.length ≥ 2 then
      let ts1 := match argGet args 0 with
        | .name n => { ts with fontName := n }
        | _ => ts
      { ts1 with fontSize := floatArg (argGet args 1) }
     else ts, inText, spans)
  else if op == "Tc" then
    (if args.length ≥ 1 then { ts with charSpacing := floatArg (argGet args 0) } else ts,
     inText, spans)
  else if op == "Tw" then
    (if args.length ≥ 1 then { ts with wordSpacing := floatArg (argGet args 0) } else ts,
     inText, spans)
  else if op == "TL" then
    (if args.length ≥ 1 then { ts with leading := floatArg (argGet args 0) } else ts,
     inText, spans)
  else if op == "Td" then
    (if args.length ≥ 2 then
      let lx := ts.lx + floatArg (argGet args 0)
      let ly := ts.ly + floatArg (argGet args 1)
      { ts with
        lx := lx
        ly := ly
        tx := lx
        ty := ly }
     else ts, inText, spans)
  else if op == "TD" then
    (if args.length ≥ 2 then
      let lx := ts.lx + floatArg (argGet args 0)
      let ly := ts.ly + floatArg (argGet args 1)
      { ts with
        leading := -(floatArg (argGet args 1))
        lx := lx
        ly := ly
        tx := lx
        ty := ly }
     else ts, inText, spans)
  else if op == "Tm" then
    (if args.length ≥ 6 then
      let tx := floatArg (argGet args 4)
      let ty := floatArg (argGet args 5)
      { ts with
        tx := tx
        ty := ty
        lx := tx
        ly := ty }
     else ts, inText, spans)
  else if op == "T*" then
    ({ ts with
       lx := 0
       ly := ts.ly - ts.leading
       tx := 0
       ty := ts.ly - ts.leading }, inText, spans)
  else if op == "Tj" then
    if inText ∧ args.length ≥ 1 then
      let text := decodeTextObj fonts ts.fontName (argGet args 0)
      (ts, inText,
        if text ≠ [] then
          spans ++ [{ x := ts.tx, y := ts.ty, text := text, fontSize := ts.fontSize }]
        else spans)
    else (ts, inText, spans)
  else if op == "TJ" then
    if inText ∧ args.length ≥ 1 then
      match argGet args 0 with
      | .arr a =>
        let text := tjConcat fonts ts.fontName a
        (ts, inText,
          if text ≠ [] then
            spans ++ [{ x := ts.tx, y := ts.ty, text := text, fontSize := ts.fontSize }]
          else spans)
      | _ => (ts, inText, spans)
    else (ts, inText, spans)
  else if op == "'" then
    let ts1 := { ts with
      lx := 0
      ly := ts.ly - ts.leading
      tx := 0
      ty := ts.ly - ts.leading }
    if inText ∧ args.length ≥ 1 then
      let text := decodeTextObj fonts ts1.fontName (argGet args 0)
      (ts1, inText,
        if text ≠ [] then
          spans ++ [{ x := ts1.tx, y := ts1.ty, text := text, fontSize := ts1.fontSize }]
        else spans)
    else (ts1, inText, spans)
  else if op == "\"" then
    let ts1 :=
      if args.length ≥ 3 then
        { ts with
          wordSpacing := floatArg (argGet args 0)
          charSpacing := floatArg (argGet args 1) }
      else ts
    let ts2 := { ts1 with
      lx := 0
      ly := ts1.ly - ts1.leading
      tx := 0
      ty := ts1.ly - ts1.leading }
    if inText ∧ args.length ≥ 3 then
      let text := decodeTextObj fonts ts2.fontName (argGet args 2)
      (ts2, inText,
        if text ≠ [] then
          spans ++ [{ x := ts2.tx, y := ts2.ty, text := text, fontSize := ts2.fontSize }]
        else spans)
    else (ts2, inText, spans)
  else (ts, inText, spans)

/-- averageFontSize from part_003. -/
def averageFontSize (spans : List TextSpan) : ℚ :=
  if spans.length == 0 then 12
  else (spans.foldl (fun a s => a + s.fontSize) 0) / (spans.length : ℚ)

/-- estimateWidth from part_003. -/
def estimateWidth (sp : TextSpan) : ℚ :=
  (sp.text.length : ℚ) * sp.fontSize * (1 / 2)

/-- unicode.IsControl (the Latin-1 Cc ranges; Go returns false for
everything above U+00FF). -/
def isControlGo (r : Nat) : Bool :=
  decide (r ≤ 0x1F) || (decide (0x7F ≤ r) && decide (r ≤ 0x9F))

/-- cleanText from part_003, carrying the prevSpace flag. -/
def cleanTextAux : Bool → List Nat → List Nat
  | _, [] => []
  | prevSpace, r :: rest =>
    if r == 13 ∨ r == 10 ∨ r == 12 then
      if prevSpace then cleanTextAux true rest else 32 :: cleanTextAux true rest
    else if isControlGo r then cleanTextAux prevSpace rest
    else if r == 32 ∨ r == 9 then
      if prevSpace then cleanTextAux true rest else r :: cleanTextAux true rest
    else r :: cleanTextAux false rest

def cleanText (s : List Nat) : List Nat := cleanTextAux false s

/-- unicode.IsSpace, as strings.TrimSpace uses it. -/
def isSpaceGo (r : Nat) : Bool :=
  r == 9 || r == 10 || r == 11 || r == 12 || r == 13 || r == 32 ||
  r == 0x85 || r == 0xA0 || r == 0x1680 ||
  (decide (0x2000 ≤ r) && decide (r ≤ 0x200A)) ||
  r == 0x2028 || r == 0x2029 || r == 0x202F || r == 0x205F || r == 0x3000

/-- strings.TrimSpace over scalar values. -/
def trimSpaceGo (l : List Nat) : List Nat :=
  ((l.dropWhile isSpaceGo).reverse.dropWhile isSpaceGo).reverse

/-- The line-probing step of spansToText: append the span to the first
line whose representative Y is within the tolerance, else open a new
line at the end. -/
def placeSpan (tol : ℚ) (sp : TextSpan) :
    List (ℚ × List TextSpan) → List (ℚ × List TextSpan)
  | [] => [(sp.y, [sp])]
  | l :: rest =>
    if |l.1 - sp.y| < tol then (l.1, l.2 ++ [sp]) :: rest
    else l :: placeSpan tol sp rest

def groupLines (tol : ℚ) (spans : List TextSpan) : List (ℚ × List TextSpan) :=
  spans.foldl (fun lines sp => placeSpan tol sp lines) []

/-- One swap of the double-loop sorts in part_003. -/
def swapIJ {α : Type} (xs : List α) (i j : Nat) : List α :=
  match xs.get? i, xs.get? j with
  | some a, some b => (xs.set i b).set j a
  | _, _ => xs

/-- The inner `j` loop: swap whenever `sw xs[j] xs[i]` holds. -/
def innerSortF {α : Type} (sw : α → α → Bool) : Nat → List α → Nat → Nat → List α
  | 0, xs, _, _ => xs
  | f + 1, xs, i, j =>
    if j < xs.length then
      let doSwap :=
        match xs.get? j, xs.get? i with
        | some a, some b => sw a b
        | _, _ => false
      innerSortF sw f (if doSwap then swapIJ xs i j else xs) i (j + 1)
    else xs

/-- The outer `i` loop of the double-loop sorts. -/
def outerSortF {α : Type} (sw : α → α → Bool) : Nat → List α → Nat → List α
  | 0, xs, _ => xs
  | f + 1, xs, i =>
    if i < xs.length - 1 then
      outerSortF sw f (innerSortF sw (xs.length + 1) xs i (i + 1)) (i + 1)
    else xs

def goSort {α : Type} (sw : α → α → Bool) (xs : List α) : List α :=
  outerSortF sw (xs.length + 1) xs 0

/-- The span-emission inner loop of spansToText: between consecutive
spans of a line, insert one space when the X gap exceeds 0.3 of the
average font size. -/
def emitSpansGo : Option TextSpan → List TextSpan → List Nat
  | _, [] => []
  | none, sp :: rest => cleanText sp.text ++ emitSpansGo (some sp) rest
  | some prev, sp :: rest =>
    let gap := sp.x - (prev.x + estimateWidth prev)
    let avgFS0 := (sp.fontSize + prev.fontSize) / 2
    let avgFS := if avgFS0 < 1 then (12 : ℚ) else avgFS0
    (if gap > avgFS * (3 / 10) then [32] else []) ++
      cleanText sp.text ++ emitSpansGo (some sp) rest

/-- The line-emission loop: lines separated by a newline. -/
def emitLinesGo : List (ℚ × List TextSpan) → List Nat
  | [] => []
  | [l] => emitSpansGo none l.2
  | l :: rest => emitSpansGo none l.2 ++ 10 :: emitLinesGo rest

/-- spansToText from part_003: group into lines by Y within tolerance,
sort lines by descending Y and spans by ascending X, emit with gap
spaces and newline separators, and trim the page string. -/
def spansToText (spans : List TextSpan) : List Nat :=
  if spans.length == 0 then []
  else
    let tol0 := averageFontSize spans * (1 / 2)
    let tol := if tol0 < 2 then (2 : ℚ) else tol0
    let lines := groupLines tol spans
    let lines2 := goSort (fun lj li => decide (li.1 < lj.1)) lines
    let lines3 := lines2.map (fun l => (l.1, goSort (fun sj si => decide (sj.x < si.x)) l.2))
    trimSpaceGo (emitLinesGo lines3)

/-- Extractor.ExtractAll from part_003: a result slot per page,
pre-filled with the empty string; per-page errors leave the slot
empty. -/
def extractAllLoop {P E : Type} :
    List P → (P → Except E (List Nat)) → List (List Nat) → Nat → List (List Nat)
  | [], _, res, _ => res
  | p :: rest, ex, res, i =>
    extractAllLoop rest ex
      (match ex p with
       | .ok t => res.set i t
       | .error _ => res) (i + 1)

def ExtractAllGo {P E : Type} (pages : List P) (ex : P → Except E (List Nat)) :
    List (List Nat) :=
  extractAllLoop pages ex (List.replicate pages.length []) 0

/-! ## Claim C2: termination of the parser on arbitrary bytes -/

/-- The claim's highlighted input: an array whose next token starts
with a byte ParseObject does not recognize. -/
def c2data : List Nat := bytesOf "[x]"

theorem parseArrayF_c2_spin : ∀ fuel acc, parseArrayF fuel c2data 1 1 acc = .spin := by
  intro fuel
  induction fuel with
  | zero => intro acc; rfl
  | succ f ih =>
    intro acc
    match f, ih with
    | 0, _ => rfl
    | f2 + 1, ih =>
      have hstep : parseArrayF (f2 + 1 + 1) c2data 1 1 acc =
          parseArrayF (f2 + 1) c2data 1 1 (acc ++ [Object.null]) := rfl
      exact hstep.trans (ih (acc ++ [Object.null]))

/-- C2: the claim says ParseObject makes progress and returns on
arbitrary bytes, in particular inside an array whose next token is an
unrecognized byte.  On `[x]` the source's ParseObject returns Null
without advancing the cursor, so parseArray re-parses the same position
forever: no amount of fuel finishes the parse. -/
theorem C2_parseObject_diverges_on_unknown_array_element :
    ∀ fuel, parseObjectF fuel c2data 0 0 = .spin := by
  intro fuel
  match fuel with
  | 0 => rfl
  | f + 1 =>
    have h : parseObjectF (f + 1) c2data 0 0 = parseArrayF f c2data 1 1 [] := rfl
    exact h.trans (parseArrayF_c2_spin f [])

/-! ## Claim C3: compressed-object resolution looks up the wrong id -/

/-- Decompressed object-stream body whose header lists objects 6 (at
body offset 0) and 7 (at body offset 12). -/
def c3data : List Nat := bytesOf "6 0 7 12 aaaaaaaaaaaaaaaaaaaaa"

/-- The xref entry under test: object 7 lives in container stream 5 at
index 1. -/
def c3entry : XRefEntry :=
  { compressed := true, inUse := true, streamObjID := 5, indexInStrm := 1 }

/-- C3: with `/N 2` and `/First 9`, the header maps the requested
object's id 7 to body offset 12, so the claim requires parsing at
9 + 12 = 21.  The source looks up the *container's* id 5 instead, never
finds it, and falls back to 9 + IndexInStrm = 10. -/
theorem C3_resolveCompressed_ignores_requested_id :
    assocFind (objStreamOffsets 2 c3data) 7 = some 12 ∧
    objStreamPos 9 c3entry (objStreamOffsets 2 c3data) c3data.length = 10 ∧
    (10 : Int) ≠ 9 + 12 := by
  refine ⟨rfl, rfl, by decide⟩

/-! ## Claim C6: the Prev chain loops forever on a cycle -/

/-- A buffer whose xref table at offset 9 has a trailer `/Prev 9`
pointing back at itself. -/
def c6data : List Nat := bytesOf "123456789xref\n0 0\ntrailer\n<< /Prev 9 >>"

def c6st0 : DocState := { data := c6data, xref := [], trailer := none, cache := [] }

def c6st1 : DocState :=
  { data := c6data, xref := [], trailer := some [("Prev", Object.int 9)], cache := [] }

theorem loadXRefAt_c6_st1_spin :
    ∀ fuel cod, loadXRefAtF fuel cod 9 c6st1 = none := by
  intro fuel cod
  induction fuel with
  | zero => rfl
  | succ f ih =>
    match f, ih with
    | 0, _ => rfl
    | 1, _ => rfl
    | 2, _ => rfl
    | f2 + 3, ih =>
      have hstep : loadXRefAtF (f2 + 3 + 1) cod 9 c6st1 =
          loadXRefAtF (f2 + 3) cod 9 c6st1 := rfl
      exact hstep.trans ih

/-- C6: the claim says a `Prev` entry pointing back at an
already-visited xref offset does not make load recurse forever.  The
source keeps no record of visited offsets and, for classical tables,
re-reads `Prev` from the first stored trailer on every recursion; with
a trailer `/Prev` pointing at its own table the load never returns,
whatever the fuel. -/
theorem C6_prev_cycle_never_terminates :
    ∀ fuel cod, loadXRefAtF fuel cod 9 c6st0 = none := by
  intro fuel cod
  match fuel with
  | 0 => rfl
  | 1 => rfl
  | 2 => rfl
  | 3 => rfl
  | f + 4 =>
    have hstep : loadXRefAtF (f + 4) cod 9 c6st0 = loadXRefAtF (f + 3) cod 9 c6st1 := rfl
    exact hstep.trans (loadXRefAt_c6_st1_spin (f + 3) cod)

/-! ## Claim C7: CMap surrogate handling -/

/-- A composite-font encoding state (the identity-seeded table), as
NewFontEncoding builds for a Type0 font before CMap parsing. -/
def c7enc : FontEncoding :=
  { codeToUnicode := List.range 256, cmapChars := [], isSimple := false }

/-- C7 counterexample: the bf-char destination token exactly as the
claim writes it, `<D83D DE00>` with the embedded space.  parseHexUTF16
folds the space as a zero hex digit, producing the units D83D, 0DE0 —
no surrogate pair — so the unpaired high surrogate is encoded as the
replacement character and the source code maps to U+FFFD U+0DE0
(bytes EF BF BD E0 B7 A0), not to the UTF-8 bytes F0 9F 98 80 of
U+1F600. -/
theorem C7_spaced_token_not_emoji :
    cmapFind ((parseBFCharEntry c7enc (bytesOf "<01> <D83D DE00>")).cmapChars) 1 =
      some [0xEF, 0xBF, 0xBD, 0xE0, 0xB7, 0xA0] ∧
    some [0xEF, 0xBF, 0xBD, 0xE0, 0xB7, 0xA0] ≠
      some ([0xF0, 0x9F, 0x98, 0x80] : List Nat) := by
  exact ⟨rfl, by decide⟩

/-- C7 amended: with the destination token written without embedded
whitespace, `<D83DDE00>`, the bf-char entry maps source code 1 to the
4-byte UTF-8 encoding of U+1F600; and in general utf16ToString joins a
high surrogate D800–DBFF followed by a low surrogate DC00–DFFF into
the corresponding supplementary-plane scalar before UTF-8 encoding. -/
theorem C7_surrogate_pairs_joined :
    cmapFind ((parseBFCharEntry c7enc (bytesOf "<01> <D83DDE00>")).cmapChars) 1 =
      some [0xF0, 0x9F, 0x98, 0x80] ∧
    ∀ hi lo, 0xD800 ≤ hi → hi ≤ 0xDBFF → 0xDC00 ≤ lo → lo ≤ 0xDFFF →
      utf16ToString [hi, lo] =
        utf8EncodeRune (0x10000 + (hi - 0xD800) * 1024 + (lo - 0xDC00)) := by
  refine ⟨rfl, ?_⟩
  intro hi lo h1 h2 h3 h4
  have hstep : utf16ToString [hi, lo] =
      if (0xD800 ≤ hi ∧ hi ≤ 0xDBFF) ∧ 1 ≤ ([lo] : List Nat).length ∧
          0xDC00 ≤ dGet [lo] 0 ∧ dGet [lo] 0 ≤ 0xDFFF then
        utf8EncodeRune ((hi - 0xD800) * 1024 + (dGet [lo] 0 - 0xDC00) + 0x10000) ++
          utf16ToStringF 2 (([lo] : List Nat).drop 1)
      else utf8EncodeRune hi ++ utf16ToStringF 2 [lo] := rfl
  have hd : dGet [lo] 0 = lo := rfl
  rw [hstep, if_pos ⟨⟨h1, h2⟩, by simp, by rw [hd]; exact h3, by rw [hd]; exact h4⟩]
  have hnil : utf16ToStringF 2 (([lo] : List Nat).drop 1) = [] := rfl
  rw [hnil, List.append_nil, hd]
  exact congrArg utf8EncodeRune (by omega)

/-- C7 witness: the amended surrogate rule applied at the claim's own
pair D83D / DE00. -/
theorem C7_surrogate_pairs_joined_witness :
    utf16ToString [0xD83D, 0xDE00] = [0xF0, 0x9F, 0x98, 0x80] := by
  have h := (C7_surrogate_pairs_joined).2 0xD83D 0xDE00
    (by decide) (by decide) (by decide) (by decide)
  simpa using h

/-! ## Claim C10: reference resolution ignores the generation number -/

/-- C10: ResolveRef consults the cache and the xref map by object
number only; the generation of the reference is never read, so any two
generations resolve identically (same object, same resulting state). -/
theorem C10_generation_ignored :
    ∀ fuel cod st n g1 g2,
      resolveRefF fuel cod st ⟨n, g1⟩ = resolveRefF fuel cod st ⟨n, g2⟩ := by
  intro fuel cod st n g1 g2
  cases fuel <;> rfl

/-! ## Claim C8: the TJ operator -/

/-- Modelled from the claim's wording: each string element's decoded
text is appended in order, each numeric element strictly below −100
appends exactly one ASCII space, anything else appends nothing. -/
def tjSpecText (fonts : FontMap) (fontName : String) (arr : List Object) : List Nat :=
  arr.flatMap (fun e =>
    match e with
    | .str s => decodeTextObj fonts fontName (.str s)
    | .int n => if (n : ℚ) < -100 then [32] else []
    | .float q => if q < -100 then [32] else []
    | _ => [])

theorem tjConcat_eq_spec (fonts : FontMap) (fn : String) :
    ∀ arr, tjConcat fonts fn arr = tjSpecText fonts fn arr := by
  intro arr
  induction arr with
  | nil => rfl
  | cons e rest ih =>
    cases e <;> simp [tjConcat, tjSpecText, floatArg, List.flatMap_cons] at ih ⊢ <;>
      rw [ih]

/-- C8: inside a BT…ET region, `TJ` with an array operand emits exactly
one span at the current text-matrix translation, whose text is the
claim's concatenation, and only when that text is non-empty; outside a
text object nothing is emitted and the state is untouched. -/
theorem C8_TJ_semantics :
    ∀ (ts : TextState) (spans : List TextSpan) (fonts : FontMap) (arr : List Object),
      processOperator "TJ" [Object.arr arr] ts true spans fonts =
        (ts, true, spans ++
          (if tjSpecText fonts ts.fontName arr = [] then []
           else [⟨ts.tx, ts.ty, tjSpecText fonts ts.fontName arr, ts.fontSize⟩])) ∧
      processOperator "TJ" [Object.arr arr] ts false spans fonts = (ts, false, spans) := by
  intro ts spans fonts arr
  constructor
  · have h : processOperator "TJ" [Object.arr arr] ts true spans fonts =
        (ts, true,
          if tjConcat fonts ts.fontName arr ≠ [] then
            spans ++ [⟨ts.tx, ts.ty, tjConcat fonts ts.fontName arr, ts.fontSize⟩]
          else spans) := rfl
    rw [h, tjConcat_eq_spec]
    by_cases hc : tjSpecText fonts ts.fontName arr = [] <;> simp [hc]
  · rfl

/-! ## Claim C9: ExtractAll shape and per-page error handling -/

theorem extractAllLoop_length {P E : Type} :
    ∀ (pages : List P) (ex : P → Except E (List Nat)) res i,
      (extractAllLoop pages ex res i).length = res.length := by
  intro pages
  induction pages with
  | nil => intro ex res i; rfl
  | cons p rest ih =>
    intro ex res i
    simp only [extractAllLoop]
    cases ex p with
    | ok t => rw [ih]; exact List.length_set res i t
    | error e => exact ih ex res (i + 1)

theorem extractAllLoop_get_lt {P E : Type} :
    ∀ (pages : List P) (ex : P → Except E (List Nat)) res i k, k < i →
      (extractAllLoop pages ex res i).get? k = res.get? k := by
  intro pages
  induction pages with
  | nil => intro ex res i k _; rfl
  | cons p rest ih =>
    intro ex res i k hk
    simp only [extractAllLoop]
    cases ex p with
    | ok t =>
      rw [ih ex _ (i + 1) k (Nat.lt_succ_of_lt hk)]
      exact List.get?_set_ne t res (Nat.ne_of_gt hk)
    | error e => exact ih ex res (i + 1) k (Nat.lt_succ_of_lt hk)

theorem extractAllLoop_get_main {P E : Type} :
    ∀ (pages : List P) (ex : P → Except E (List Nat)) res i j p,
      pages.get? j = some p → i + pages.length ≤ res.length →
      (extractAllLoop pages ex res i).get? (i + j) =
        (match ex p with
         | .ok t => some t
         | .error _ => res.get? (i + j)) := by
  intro pages
  induction pages with
  | nil => intro ex res i j p hj; simp at hj
  | cons p0 rest ih =>
    intro ex res i j p hj hlen
    cases j with
    | zero =>
      simp only [List.get?] at hj
      injection hj with h0
      have hi : i < res.length := by simp only [List.length_cons] at hlen; omega
      simp only [extractAllLoop, Nat.add_zero]
      rw [← h0]
      cases hex : ex p0 with
      | ok t =>
        rw [extractAllLoop_get_lt rest ex _ (i + 1) i (Nat.lt_succ_self i)]
        exact List.get?_set_eq_of_lt t hi
      | error e =>
        rw [extractAllLoop_get_lt rest ex res (i + 1) i (Nat.lt_succ_self i)]
    | succ j2 =>
      simp only [List.get?] at hj
      simp only [extractAllLoop]
      have hidx : i + (j2 + 1) = i + 1 + j2 := by omega
      rw [hidx]
      cases hex : ex p0 with
      | ok t =>
        have hlen2 : i + 1 + rest.length ≤ (res.set i t).length := by
          rw [List.length_set]
          simp only [List.length_cons] at hlen
          omega
        rw [ih ex _ (i + 1) j2 p hj hlen2]
        cases ex p with
        | ok t2 => rfl
        | error e2 => exact List.get?_set_ne t res (by omega)
      | error e =>
        have hlen2 : i + 1 + rest.length ≤ res.length := by
          simp only [List.length_cons] at hlen
          omega
        rw [ih ex res (i + 1) j2 p hj hlen2]

/-- C9: ExtractAll returns exactly one string per page in order (its
length equals the page count), and a page whose extraction fails
contributes the empty string at its position without aborting the
batch. -/
theorem C9_extractAll_shape :
    ∀ {P E : Type} (pages : List P) (ex : P → Except E (List Nat)),
      (ExtractAllGo pages ex).length = pages.length ∧
      ∀ j p, pages.get? j = some p →
        (ExtractAllGo pages ex).get? j =
          some (match ex p with
                | .ok t => t
                | .error _ => []) := by
  intro P E pages ex
  constructor
  · rw [ExtractAllGo, extractAllLoop_length]
    exact List.length_replicate _ _
  · intro j p hj
    have hb : 0 + pages.length ≤ (List.replicate pages.length ([] : List Nat)).length := by
      simp
    have h := extractAllLoop_get_main pages ex (List.replicate pages.length []) 0 j p hj hb
    rw [ExtractAllGo]
    have hjlt : j < pages.length := (List.get?_eq_some.mp hj).choose
    simp only [Nat.zero_add] at h
    rw [h]
    cases ex p with
    | ok t => rfl
    | error e => simp [List.get?_eq_getElem?, hjlt]

/-- A page extractor for the C9 witness: page 0 extracts to "h",
page 1 fails. -/
def c9ex : Nat → Except Unit (List Nat) :=
  fun p => if p = 0 then Except.ok [104] else Except.error ()

/-- C9 witness: the shape theorem applied to a two-page document whose
second page fails to extract. -/
theorem C9_extractAll_shape_witness :
    ([0, 1] : List Nat).get? 1 = some 1 ∧
    (ExtractAllGo [0, 1] c9ex).length = 2 ∧
    (ExtractAllGo [0, 1] c9ex).get? 1 = some [] := by
  have h := C9_extractAll_shape [0, 1] c9ex
  refine ⟨rfl, h.1, ?_⟩
  have h2 := h.2 1 1 rfl
  simpa [c9ex] using h2

/-! ## Claim C4: the 256 MiB decompression cap -/

/-- A codecs record whose host decoders are never consulted by the
ASCIIHex path. -/
def codTriv : Codecs :=
  { inflate := fun _ => ([], false), lzw := fun _ => ([], false),
    a85 := fun _ => ([], false) }

theorem dGet_replicate {n i a : Nat} (h : i < n) : dGet (List.replicate n a) i = a := by
  simp [dGet, List.getD, List.get?_eq_getElem?, h]

theorem takeWhile_ws_replicate_a (m : Nat) :
    (List.replicate m 97).takeWhile isWhitespaceB = [] := by
  cases m with
  | zero => rfl
  | succ k => simp [List.replicate_succ, List.takeWhile_cons, isWhitespaceB]

theorem skipWSIdx_replicate_a {n i : Nat} (h : i ≤ n) :
    skipWSIdx (List.replicate n 97) i = i := by
  rw [skipWSIdx, List.drop_replicate, takeWhile_ws_replicate_a]
  rfl

theorem asciiHexLoop_replicate_a :
    ∀ k i acc f n, i + 2 * k = n → k < f →
      asciiHexLoop f (List.replicate n 97) i acc = acc ++ List.replicate k 170 := by
  intro k
  induction k with
  | zero =>
    intro i acc f n hn hf
    obtain ⟨f2, rfl⟩ : ∃ f2, f = f2 + 1 := ⟨f - 1, by omega⟩
    have hi : i = n := by omega
    subst hi
    simp [asciiHexLoop, List.length_replicate, Nat.lt_irrefl]
  | succ k ih =>
    intro i acc f n hn hf
    obtain ⟨f2, rfl⟩ : ∃ f2, f = f2 + 1 := ⟨f - 1, by omega⟩
    have hkf : k < f2 := by omega
    have hi1 : i < n := by omega
    have hi2 : i + 1 < n := by omega
    simp only [asciiHexLoop, List.length_replicate, hi1, if_true,
      skipWSIdx_replicate_a (Nat.le_of_lt hi1), dGet_replicate hi1,
      skipWSIdx_replicate_a (Nat.le_of_lt hi2), dGet_replicate hi2]
    rw [if_neg (not_or.mpr ⟨by omega, by decide⟩), if_pos ⟨by omega, by decide⟩]
    have hrec := ih (i + 2) (acc ++ [hexVal 97 * 16 + hexVal 97]) f2 n
      (by omega) (by omega)
    rw [hrec]
    have hbyte : hexVal 97 * 16 + hexVal 97 = 170 := by decide
    rw [hbyte, List.append_assoc]
    rfl

/-- C4 counterexample: decompress with the ASCIIHexDecode filter on
1073741828 hex digits succeeds and returns 268435457 bytes — one byte
over the 256 MiB cap — instead of failing with a DecompressionLimit
error.  (The same silent behaviour holds for ASCII85Decode and
LZWDecode, whose limit readers truncate without a size check.) -/
theorem C4_asciiHex_exceeds_cap_without_error :
    DecompressStream codTriv [("Filter", Object.name "ASCIIHexDecode")]
        (List.replicate 536870914 97) =
      .ok (List.replicate 268435457 170) ∧
    268435457 > maxDecompressedSize := by
  constructor
  · have h0 : DecompressStream codTriv [("Filter", Object.name "ASCIIHexDecode")]
        (List.replicate 536870914 97) =
        Except.ok (asciiHexLoop ((List.replicate 536870914 97).length + 1)
          (List.replicate 536870914 97) 0 []) := rfl
    rw [h0, List.length_replicate]
    rw [asciiHexLoop_replicate_a 268435457 0 [] 536870915 536870914 (by norm_num)
      (by norm_num)]
    rfl
  · norm_num [maxDecompressedSize]

theorem runLengthLoop_cap :
    ∀ f data buf out, buf.length ≤ maxDecompressedSize →
      runLengthLoop f data buf = .ok out → out.length ≤ maxDecompressedSize := by
  intro f
  induction f with
  | zero =>
    intro data buf out hb h
    injection h with h
    exact h ▸ hb
  | succ f ih =>
    intro data buf out hb h
    simp only [runLengthLoop] at h
    split at h
    · injection h with h; exact h ▸ hb
    · split at h
      · injection h with h; exact h ▸ hb
      · split at h
        · split at h
          · exact absurd h (by simp)
          · rename_i hcap
            exact ih _ _ out (by omega) h
        · split at h
          · injection h with h; exact h ▸ hb
          · split at h
            · exact absurd h (by simp)
            · rename_i hcap
              exact ih _ _ out (by omega) h

theorem limitReadAll_over (st : List Nat × Bool)
    (h : st.1.length > maxDecompressedSize) :
    limitReadAll st = .ok (st.1.take (maxDecompressedSize + 1)) := by
  rw [limitReadAll, if_pos (by omega)]

/-- C4 amended: RunLengthDecode enforces the cap (any successful result
is at most 256 MiB), and FlateDecode fails with a DecompressionLimit
error whenever its inflated stream exceeds the cap.  ASCII85Decode and
LZWDecode instead succeed on an over-cap stream, silently truncating
the output to exactly 256 MiB + 1 bytes, and ASCIIHexDecode is
uncapped. -/
theorem C4_cap_enforcement_and_truncation :
    (∀ data out, runLengthDecode data = .ok out → out.length ≤ maxDecompressedSize) ∧
    (∀ cod parms data, (cod.inflate data).1.length > maxDecompressedSize →
      flateDecode cod parms data = .error "DecompressionLimit") ∧
    (∀ cod data cut,
      cut = (match indexOfSub data (bytesOf "~>") with
             | some e => data.take (e + 2)
             | none => data) →
      (cod.a85 cut).1.length > maxDecompressedSize →
      ascii85Decode cod data = .ok ((cod.a85 cut).1.take (maxDecompressedSize + 1)) ∧
      ((cod.a85 cut).1.take (maxDecompressedSize + 1)).length =
        maxDecompressedSize + 1) ∧
    (∀ cod parms data, (cod.lzw data).1.length > maxDecompressedSize →
      lzwDecode cod parms data = .ok ((cod.lzw data).1.take (maxDecompressedSize + 1)) ∧
      ((cod.lzw data).1.take (maxDecompressedSize + 1)).length =
        maxDecompressedSize + 1) := by
  refine ⟨?_, ?_, ?_, ?_⟩
  · intro data out h
    exact runLengthLoop_cap (data.length + 1) data [] out (by simp [maxDecompressedSize]) h
  · intro cod parms data h
    have hlr := limitReadAll_over (cod.inflate data) h
    have hlen : ((cod.inflate data).1.take (maxDecompressedSize + 1)).length >
        maxDecompressedSize := by
      rw [List.length_take]
      omega
    simp [flateDecode, hlr, hlen]
    intro hc
    exact absurd hc (by omega)
  · intro cod data cut hcut h
    subst hcut
    have hlr := limitReadAll_over _ h
    refine ⟨?_, by rw [List.length_take]; omega⟩
    simp only [ascii85Decode]
    rw [hlr]
  · intro cod parms data h
    have hlr := limitReadAll_over (cod.lzw data) h
    refine ⟨?_, by rw [List.length_take]; omega⟩
    simp only [lzwDecode]
    rw [hlr]

/-- A codecs record whose host decoders all produce a stream one byte
past the cap-plus-one read window. -/
def codBig : Codecs :=
  { inflate := fun _ => (List.replicate (maxDecompressedSize + 2) 0, true),
    lzw := fun _ => (List.replicate (maxDecompressedSize + 2) 0, true),
    a85 := fun _ => (List.replicate (maxDecompressedSize + 2) 0, true) }

/-- C4 witness: the cap theorem applied to the repository's own
RunLength test vector, and to over-cap oracle streams for Flate,
ASCII85 and LZW. -/
theorem C4_cap_enforcement_and_truncation_witness :
    runLengthDecode [2, 65, 66, 67, 128] = .ok [65, 66, 67] ∧
    ([65, 66, 67] : List Nat).length ≤ maxDecompressedSize ∧
    (codBig.inflate []).1.length > maxDecompressedSize ∧
    flateDecode codBig none [] = .error "DecompressionLimit" ∧
    ascii85Decode codBig [] = .ok ((codBig.a85 []).1.take (maxDecompressedSize + 1)) ∧
    lzwDecode codBig none [] = .ok ((codBig.lzw []).1.take (maxDecompressedSize + 1)) := by
  have hlen : (List.replicate (maxDecompressedSize + 2) (0 : Nat)).length >
      maxDecompressedSize := by
    rw [List.length_replicate]
    omega
  refine ⟨rfl, ?_, hlen, ?_, ?_, ?_⟩
  · exact C4_cap_enforcement_and_truncation.1 [2, 65, 66, 67, 128] [65, 66, 67] rfl
  · exact C4_cap_enforcement_and_truncation.2.1 codBig none [] hlen
  · exact (C4_cap_enforcement_and_truncation.2.2.1 codBig [] [] rfl hlen).1
  · exact (C4_cap_enforcement_and_truncation.2.2.2 codBig none [] hlen).1

/-! ## Claim C5: first-seen xref mappings are never overwritten -/

theorem xrefFind_cons_of_absent {x : List (Int × XRefEntry)} {id n : Int}
    {e2 e : XRefEntry} (habs : (xrefFind x id).isSome = false)
    (h : xrefFind x n = some e) :
    xrefFind ((id, e2) :: x) n = some e := by
  by_cases hid : id = n
  · subst hid
    rw [h] at habs
    simp at habs
  · rw [xrefFind] at h ⊢
    rw [List.find?_cons_of_neg]
    · exact h
    · simp [hid]

theorem xrefFind_setIfAbsent {x : List (Int × XRefEntry)} {id n : Int}
    {e2 e : XRefEntry} (h : xrefFind x n = some e) :
    xrefFind (xrefSetIfAbsent x id e2) n = some e := by
  rw [xrefSetIfAbsent]
  split
  · exact h
  · rename_i habs
    exact xrefFind_cons_of_absent (Bool.not_eq_true _ ▸ eq_false_of_ne_true habs) h

theorem xrefEntriesLoop_pres (data : List Nat) :
    ∀ count id pos x {n e}, xrefFind x n = some e →
      xrefFind (xrefEntriesLoop data count id pos x).2 n = some e := by
  intro count
  induction count with
  | zero => intro id pos x n e h; exact h
  | succ k ih =>
    intro id pos x n e h
    simp only [xrefEntriesLoop]
    split
    · exact h
    · split
      · exact ih (id + 1) (pos + 20) x h
      · exact ih (id + 1) (pos + 20) _ (xrefFind_setIfAbsent h)

theorem xrefTableLoop_pres (data : List Nat) :
    ∀ fuel pos x {n e}, xrefFind x n = some e →
      xrefFind (xrefTableLoop data fuel pos x).2 n = some e := by
  intro fuel
  induction fuel with
  | zero => intro pos x n e h; exact h
  | succ f ih =>
    intro pos x n e h
    simp only [xrefTableLoop]
    split
    · exact h
    · split
      · exact h
      · split
        · exact ih _ _ (xrefEntriesLoop_pres data _ _ _ x h)
        · exact h

theorem xrefStreamEntries_pres (sdata : List Nat) (w1 w2 w3 es : Int) :
    ∀ count id offset x {n e}, xrefFind x n = some e →
      xrefFind (xrefStreamEntries sdata w1 w2 w3 es count id offset x).2 n = some e := by
  intro count
  induction count with
  | zero => intro id offset x n e h; exact h
  | succ k ih =>
    intro id offset x n e h
    simp only [xrefStreamEntries]
    split
    · exact h
    · split
      · exact ih (id + 1) _ x h
      · rename_i habs
        have habs2 : (xrefFind x id).isSome = false :=
          Bool.not_eq_true _ ▸ eq_false_of_ne_true habs
        split
        · exact ih (id + 1) _ _ (xrefFind_cons_of_absent habs2 h)
        · split
          · exact ih (id + 1) _ _ (xrefFind_cons_of_absent habs2 h)
          · split
            · exact ih (id + 1) _ _ (xrefFind_cons_of_absent habs2 h)
            · exact ih (id + 1) _ x h

theorem xrefStreamSubs_pres (sdata : List Nat) (w1 w2 w3 es : Int) :
    ∀ subs offset x {n e}, xrefFind x n = some e →
      xrefFind (xrefStreamSubs sdata w1 w2 w3 es subs offset x) n = some e := by
  intro subs
  induction subs with
  | nil => intro offset x n e h; exact h
  | cons s rest ih =>
    intro offset x n e h
    cases s with
    | mk first count =>
      simp only [xrefStreamSubs]
      exact ih _ _ (xrefStreamEntries_pres sdata w1 w2 w3 es _ _ _ x h)

/-- Preservation hypothesis for the abstracted `Prev` recursion. -/
def LoadRecPres (loadRec : Int → DocState → Option DocState) : Prop :=
  ∀ p s s2, loadRec p s = some s2 →
    ∀ n e, xrefFind s.xref n = some e → xrefFind s2.xref n = some e

theorem parseXRefTableGo_pres {fuel : Nat} {loadRec} {pos : Nat} {st st' : DocState}
    (hrec : LoadRecPres loadRec)
    (h : parseXRefTableGo fuel loadRec pos st = some st') :
    ∀ {n e}, xrefFind st.xref n = some e → xrefFind st'.xref n = some e := by
  intro n e hx
  have hloop := xrefTableLoop_pres st.data (st.data.length + 1) pos st.xref hx
  simp only [parseXRefTableGo] at h
  split at h
  · exact Option.noConfusion h
  · injection h with h
    subst h
    exact hloop
  · split at h
    · split at h
      · exact hrec _ _ _ h n e hloop
      · injection h with h
        subst h
        exact hloop
    · injection h with h
      subst h
      exact hloop

theorem parseXRefStreamGo_pres {fuel : Nat} {cod : Codecs} {loadRec} {pos : Nat}
    {st st' : DocState} (hrec : LoadRecPres loadRec)
    (h : parseXRefStreamGo fuel cod loadRec pos st = some st') :
    ∀ {n e}, xrefFind st.xref n = some e → xrefFind st'.xref n = some e := by
  intro n e hx
  simp only [parseXRefStreamGo] at h
  split at h
  · exact Option.noConfusion h
  · injection h with h
    subst h
    exact hx
  · rename_i obj hobj
    split at h
    · rename_i d0 sraw
      split at h
      · injection h with h
        subst h
        exact hx
      · split at h
        · injection h with h
          subst h
          exact hx
        · split at h
          · injection h with h
            subst h
            exact hx
          · split at h
            · split at h
              · exact hrec _ _ _ h n e
                  (xrefStreamSubs_pres _ _ _ _ _ _ _ _ hx)
              · injection h with h
                subst h
                exact xrefStreamSubs_pres _ _ _ _ _ _ _ _ hx
            · injection h with h
              subst h
              exact xrefStreamSubs_pres _ _ _ _ _ _ _ _ hx
    · injection h with h
      subst h
      exact hx

/-- C5: while walking the `Prev` chain — classical tables and xref
streams alike — an object number already present in the xref map is
never overwritten by a later-read (older) section. -/
theorem C5_first_seen_wins :
    ∀ fuel cod off st st' n e,
      xrefFind st.xref n = some e → loadXRefAtF fuel cod off st = some st' →
      xrefFind st'.xref n = some e := by
  intro fuel
  induction fuel with
  | zero =>
    intro cod off st st' n e _ h
    exact Option.noConfusion h
  | succ f ih =>
    intro cod off st st' n e hx h
    have hrec : LoadRecPres (loadXRefAtF f cod) := by
      intro p s s2 h2 n2 e2 hx2
      exact ih cod p s s2 n2 e2 hx2 h2
    simp only [loadXRefAtF] at h
    split at h
    · injection h with h
      subst h
      exact hx
    · split at h
      · exact parseXRefTableGo_pres hrec h hx
      · exact parseXRefStreamGo_pres hrec h hx

/-- A terminating one-section input for the C5 witness: an empty xref
table with an empty trailer at offset 0. -/
def c5data : List Nat := bytesOf "xref\n0 0\ntrailer\n<< >>"

def c5e0 : XRefEntry := { offset := 7, generation := 0, inUse := true }

def c5st0 : DocState := { data := c5data, xref := [(0, c5e0)], trailer := none, cache := [] }

/-- C5 witness: loading a section over a state that already maps object
0 leaves that mapping intact. -/
theorem C5_first_seen_wins_witness :
    ∃ st', loadXRefAtF 3 codTriv 0 c5st0 = some st' ∧ xrefFind st'.xref 0 = some c5e0 :=
  ⟨{ data := c5data, xref := [(0, c5e0)], trailer := some [], cache := [] }, rfl,
    C5_first_seen_wins 3 codTriv 0 c5st0 _ 0 c5e0 rfl rfl⟩

/-! ## Claim C1: the extracted page string's character discipline -/

/-- A space-or-tab byte (the claim's "double space / double tab"). -/
def isSpTab (r : Nat) : Bool := r == 32 || r == 9

/-- True when the string does not start with a space or tab. -/
def headNotSpTab : List Nat → Bool
  | [] => true
  | r :: _ => !isSpTab r

/-- The claim's forbidden pattern: two consecutive space/tab
characters anywhere in the string. -/
def hasWSRun : List Nat → Bool
  | [] => false
  | a :: rest => (isSpTab a && !headNotSpTab rest) || hasWSRun rest

theorem cleanTextAux_head_true : ∀ s, headNotSpTab (cleanTextAux true s) = true := by
  intro s
  induction s with
  | nil => rfl
  | cons c rest ih =>
    simp only [cleanTextAux]
    split
    · exact ih
    · split
      · exact ih
      · split
        · exact ih
        · rename_i h1 h2 h3
          cases hor : (c == 32 || c == 9) with
          | false => simp [headNotSpTab, isSpTab, hor]
          | true => exact absurd (Bool.or_eq_true_iff.mp hor) h3

theorem cleanTextAux_no_run : ∀ s pv, hasWSRun (cleanTextAux pv s) = false := by
  intro s
  induction s with
  | nil => intro pv; rfl
  | cons c rest ih =>
    intro pv
    simp only [cleanTextAux]
    split
    · split
      · exact ih true
      · simp only [hasWSRun]
        rw [cleanTextAux_head_true rest, ih true]
        simp
    · split
      · exact ih pv
      · split
        · split
          · exact ih true
          · simp only [hasWSRun]
            rw [cleanTextAux_head_true rest, ih true]
            simp
        · simp only [hasWSRun]
          rename_i h1 h2 h3
          have hsp : isSpTab c = false := by
            simp only [isSpTab]
            cases hor : (c == 32 || c == 9) with
            | false => rfl
            | true => exact absurd (Bool.or_eq_true_iff.mp hor) h3
          rw [hsp, ih false]
          simp

theorem cleanTextAux_not_control :
    ∀ s pv r, r ∈ cleanTextAux pv s → isControlGo r = false := by
  intro s
  induction s with
  | nil => intro pv r h; simp [cleanTextAux] at h
  | cons c rest ih =>
    intro pv r h
    simp only [cleanTextAux] at h
    split at h
    · split at h
      · exact ih true r h
      · rcases List.mem_cons.mp h with h | h
        · subst h; rfl
        · exact ih true r h
    · rename_i hcr
      split at h
      · exact ih pv r h
      · rename_i hctl
        split at h
        · split at h
          · exact ih true r h
          · rcases List.mem_cons.mp h with h | h
            · subst h
              exact eq_false_of_ne_true hctl
            · exact ih true r h
        · rcases List.mem_cons.mp h with h | h
          · subst h
            exact eq_false_of_ne_true hctl
          · exact ih false r h

theorem cleanText_not_control : ∀ s r, r ∈ cleanText s → isControlGo r = false :=
  fun s r h => cleanTextAux_not_control s false r h

theorem cleanText_no_run : ∀ s, hasWSRun (cleanText s) = false :=
  fun s => cleanTextAux_no_run s false

theorem mem_emitSpansGo_not_control :
    ∀ sps prev r, r ∈ emitSpansGo prev sps → isControlGo r = false := by
  intro sps
  induction sps with
  | nil => intro prev r h; cases prev <;> simp [emitSpansGo] at h
  | cons sp rest ih =>
    intro prev r h
    cases prev with
    | none =>
      rcases List.mem_append.mp h with h | h
      · exact cleanText_not_control _ r h
      · exact ih (some sp) r h
    | some pv =>
      simp only [emitSpansGo, List.mem_append, or_assoc] at h
      rcases h with h | h | h
      · split at h
        · split at h
          · have h32 := List.mem_singleton.mp h
            subst h32
            rfl
          · exact absurd h (List.not_mem_nil r)
        · split at h
          · have h32 := List.mem_singleton.mp h
            subst h32
            rfl
          · exact absurd h (List.not_mem_nil r)
      · exact cleanText_not_control _ r h
      · exact ih (some sp) r h

theorem mem_emitLinesGo :
    ∀ lines r, r ∈ emitLinesGo lines → r = 10 ∨ isControlGo r = false := by
  intro lines
  induction lines with
  | nil => intro r h; simp [emitLinesGo] at h
  | cons l rest ih =>
    intro r h
    cases rest with
    | nil => exact Or.inr (mem_emitSpansGo_not_control l.2 none r h)
    | cons l2 rest2 =>
      rcases List.mem_append.mp h with h | h
      · exact Or.inr (mem_emitSpansGo_not_control l.2 none r h)
      · rcases List.mem_cons.mp h with h | h
        · exact Or.inl h
        · exact ih r h

theorem mem_trimSpaceGo : ∀ l r, r ∈ trimSpaceGo l → r ∈ l := by
  intro l r h
  rw [trimSpaceGo] at h
  rw [List.mem_reverse] at h
  have h2 := (List.dropWhile_sublist (l := (l.dropWhile isSpaceGo).reverse)
    (p := isSpaceGo)).subset h
  rw [List.mem_reverse] at h2
  exact (List.dropWhile_sublist (l := l) (p := isSpaceGo)).subset h2

theorem head?_dropWhile_false {p : Nat → Bool} :
    ∀ (l : List Nat) a, (l.dropWhile p).head? = some a → p a = false := by
  intro l
  induction l with
  | nil => intro a h; simp [List.dropWhile] at h
  | cons c rest ih =>
    intro a h
    rw [List.dropWhile_cons] at h
    split at h
    · exact ih a h
    · rename_i hpc
      injection h with h
      subst h
      exact eq_false_of_ne_true hpc

theorem getLast?_dropWhile_of_some {p : Nat → Bool} :
    ∀ (l : List Nat) a, (l.dropWhile p).getLast? = some a → l.getLast? = some a := by
  intro l a h
  obtain ⟨t, ht⟩ := List.dropWhile_suffix (l := l) p
  rw [← ht]
  rw [List.getLast?_append_of_ne_nil]
  · exact h
  · intro hnil
    rw [hnil] at h
    simp at h

/-- Trimmed-ness: neither end of the string is a Unicode space. -/
def isTrimmed (l : List Nat) : Bool :=
  (l.head?.all fun r => !isSpaceGo r) && (l.getLast?.all fun r => !isSpaceGo r)

theorem trimSpaceGo_isTrimmed : ∀ l, isTrimmed (trimSpaceGo l) = true := by
  intro l
  rw [isTrimmed, Bool.and_eq_true]
  constructor
  · rw [trimSpaceGo]
    cases hh : (((l.dropWhile isSpaceGo).reverse.dropWhile isSpaceGo).reverse).head? with
    | none => rfl
    | some a =>
      rw [List.head?_reverse] at hh
      have h2 := getLast?_dropWhile_of_some _ a hh
      rw [List.getLast?_reverse] at h2
      have h3 := head?_dropWhile_false l a h2
      simp [h3]
  · rw [trimSpaceGo]
    cases hh : (((l.dropWhile isSpaceGo).reverse.dropWhile isSpaceGo).reverse).getLast? with
    | none => rfl
    | some a =>
      rw [List.getLast?_reverse] at hh
      have h3 := head?_dropWhile_false _ a hh
      simp [h3]

/-- C1 counterexample: two spans on one line, the second beginning with
a space.  The gap-inserted space meets the span's own leading space and
the page string contains a double space, violating the claim as
stated. -/
def c1spanA : TextSpan := { x := 0, y := 0, text := [97], fontSize := 12 }

def c1spanB : TextSpan := { x := 100, y := 0, text := [32, 98], fontSize := 12 }

theorem C1_double_space_possible :
    spansToText [c1spanA, c1spanB] = [97, 32, 32, 98] ∧
    hasWSRun (spansToText [c1spanA, c1spanB]) = true := by
  have h : spansToText [c1spanA, c1spanB] = [97, 32, 32, 98] := by
    norm_num [spansToText, averageFontSize, groupLines, placeSpan, goSort, outerSortF,
      innerSortF, swapIJ, emitLinesGo, emitSpansGo, estimateWidth, cleanText, cleanTextAux,
      trimSpaceGo, isControlGo, isSpaceGo, c1spanA, c1spanB, List.foldl, dGet]
  exact ⟨h, by rw [h]; rfl⟩

/-- C1 amended: the page string never contains `\r` or `\f`, its only
control character is `\n`, and it is trimmed; each individual span's
normalized text contains no run of two space/tab characters — but a
double space can arise at a span boundary, when the gap-inserted space
meets a span whose text begins with whitespace. -/
theorem C1_output_discipline :
    ∀ spans : List TextSpan,
      (∀ r ∈ spansToText spans, r ≠ 13 ∧ r ≠ 12 ∧ (isControlGo r = true → r = 10)) ∧
      isTrimmed (spansToText spans) = true ∧
      ∀ s, hasWSRun (cleanText s) = false := by
  intro spans
  refine ⟨?_, ?_, cleanText_no_run⟩
  · intro r hr
    rw [spansToText] at hr
    split at hr
    · simp at hr
    · have hr2 := mem_trimSpaceGo _ r hr
      have hr3 := mem_emitLinesGo _ r hr2
      rcases hr3 with h10 | hnc
      · subst h10
        exact ⟨by decide, by decide, fun _ => rfl⟩
      · refine ⟨?_, ?_, fun hc => absurd hc (by simp [hnc])⟩
        · intro h13
          subst h13
          simp [isControlGo] at hnc
        · intro h12
          subst h12
          simp [isControlGo] at hnc
  · rw [spansToText]
    split
    · rfl
    · exact trimSpaceGo_isTrimmed _

/-- C1 witness: the amended discipline applied to a concrete page of
one span. -/
theorem C1_output_discipline_witness :
    (97 ∈ spansToText [c1spanA] ∧ 97 ≠ 13 ∧ 97 ≠ 12 ∧ (isControlGo 97 = true → 97 = 10)) ∧
    isTrimmed (spansToText [c1spanA]) = true ∧
    hasWSRun (cleanText [32, 32, 97]) = false := by
  have h := C1_output_discipline [c1spanA]
  have hm : spansToText [c1spanA] = [97] := by
    norm_num [spansToText, averageFontSize, groupLines, placeSpan, goSort, outerSortF,
      innerSortF, swapIJ, emitLinesGo, emitSpansGo, estimateWidth, cleanText, cleanTextAux,
      trimSpaceGo, isControlGo, isSpaceGo, c1spanA, List.foldl, dGet]
  have hmem : 97 ∈ spansToText [c1spanA] := by rw [hm]; simp
  exact ⟨⟨hmem, h.1 97 hmem⟩, h.2.1, h.2.2 [32, 32, 97]⟩
